import Mathlib

/-!
Verification development for the graphql-mcp-bridge compiler core.

The TypeScript source is shallowly embedded:
* `JValue` models the JSON-like JavaScript values handled at runtime
  (variables objects and field-selection trees); `undef` and `null` are
  distinguished, exactly as `undefined` and `null` are in JavaScript.
* `ZodType` models the subset of the zod validator combinators the source
  constructs (`z.string()`, `z.number().int()`, `z.number()`, `z.boolean()`,
  `z.literal(...)`, `z.enum(...)`, `z.array(...)`, `z.object(...)` with its
  default "strip" behaviour for unknown keys, `.strict()`, `.optional()`,
  `z.any()`), and `zodParse` models `.parse` issue collection of zod v3.
* `GType`/`GSchema` model the GraphQL type graph handed over by
  `graphql.buildSchema` (read-only, possibly cyclic through type names).
* The compilers of `generate-validation.ts`, the default-selection
  generator, the query renderer of `generate-query-string.ts`, the
  operation extractor and the per-tool `execution` closure of
  `schema-parser.ts` are each ported definition by definition.

The recursive schema compilers are written with an explicit fuel
parameter (the TypeScript recursion is bounded by its `depth` guard, and
the fuel-stability theorem proved below shows any fuel beyond
`maxSchemaDepth + 1 - depth` changes nothing, which is the termination
argument for the original recursive descent).
-/

/-- JavaScript `x || default` for numeric configuration fields: `undefined`
and `0` are falsy, any other number is taken as given. -/
def jsOrNat (x : Option Nat) (d : Nat) : Nat :=
  match x with
  | none => d
  | some v => if v = 0 then d else v

/-- JavaScript `x || ''`-style defaulting for optional strings:
`undefined` and the empty string are falsy. -/
def jsOrStr (x : Option String) (d : String) : String :=
  match x with
  | none => d
  | some v => if v = "" then d else v

/-- Substring test on lists, used to model JavaScript
`String.prototype.includes`. -/
def listIsInfixOf [BEq α] : List α → List α → Bool
  | needle, [] => needle.isEmpty
  | needle, h :: t => needle.isPrefixOf (h :: t) || listIsInfixOf needle t

/-- JavaScript `haystack.includes(needle)`. -/
def strIncludes (haystack needle : String) : Bool :=
  listIsInfixOf needle.toList haystack.toList

/-- A JSON-like JavaScript runtime value.  `undef` is JavaScript's
`undefined`, kept distinct from `null`; numbers are modelled as rationals
so that zod's integrality check (`z.number().int()`) is expressible. -/
inductive JValue where
  | undef : JValue
  | null : JValue
  | bool (b : Bool) : JValue
  | num (q : Rat) : JValue
  | str (s : String) : JValue
  | arr (items : List JValue) : JValue
  | obj (fields : List (String × JValue)) : JValue

/-- Property access `o[k]` on an object's entry list: first binding wins,
absent keys read as `undefined`. -/
def jsGet (kv : List (String × JValue)) (k : String) : JValue :=
  match kv.find? (fun p => p.1 = k) with
  | some p => p.2
  | none => JValue.undef

/-- JavaScript `k in o`. -/
def jsHasKey (kv : List (String × JValue)) (k : String) : Bool :=
  (kv.find? (fun p => p.1 = k)).isSome

def JValue.isUndef : JValue → Bool
  | .undef => true
  | _ => false

/-- JavaScript truthiness test (`!value` is true exactly on these). -/
def jsFalsy : JValue → Bool
  | .undef => true
  | .null => true
  | .bool b => !b
  | .num q => q = 0
  | .str s => s = ""
  | _ => false

/-- The `received` slot of a zod issue (zod v3's `getParsedType`, plus the
`"float"` tag its `.int()` check reports). -/
inductive ZReceived where
  | undef | nullv | stringv | numberv | floatv | booleanv | arrayv | objectv
deriving DecidableEq, Repr

def ZReceived.ofValue : JValue → ZReceived
  | .undef => .undef
  | .null => .nullv
  | .bool _ => .booleanv
  | .num _ => .numberv
  | .str _ => .stringv
  | .arr _ => .arrayv
  | .obj _ => .objectv

/-- The zod issue codes produced by the combinators the source uses. -/
inductive ZIssueCode where
  | invalid_type | invalid_literal | invalid_enum_value | unrecognized_keys
deriving DecidableEq, Repr

/-- One entry of a `ZodError`'s `issues` array (the fields the source
inspects: `code`, `path`, `expected`, `received`). -/
structure ZIssue where
  code : ZIssueCode
  path : List String
  expected : String
  received : ZReceived
deriving DecidableEq, Repr

/-- The zod validator combinators the source builds. `objectStrip` is
`z.object(...)` with its default behaviour of stripping unknown keys;
`objectStrict` is `z.object(...).strict()`. -/
inductive ZodType where
  | string : ZodType
  | int : ZodType
  | float : ZodType
  | boolean : ZodType
  | literal (value : String) : ZodType
  | enum (values : List String) : ZodType
  | array (item : ZodType) : ZodType
  | objectStrip (fields : List (String × ZodType)) : ZodType
  | objectStrict (fields : List (String × ZodType)) : ZodType
  | optional (inner : ZodType) : ZodType
  | any : ZodType

def prefixIssuePath (k : String) (i : ZIssue) : ZIssue :=
  { i with path := k :: i.path }

mutual
/-- zod v3 `.parse` semantics for the modelled combinators: the collected
issue list (parsing succeeds iff it is empty) together with the parsed
output value.  Object parsing visits shape keys in declaration order,
so issues of earlier shape keys come first; a strict object appends its
single `unrecognized_keys` issue after the per-key issues. -/
def zodParse : ZodType → JValue → List ZIssue × JValue
  | .string, v =>
    match v with
    | .str s => ([], .str s)
    | _ => ([⟨.invalid_type, [], "string", .ofValue v⟩], v)
  | .int, v =>
    match v with
    | .num q =>
      if q.den = 1 then ([], .num q)
      else ([⟨.invalid_type, [], "integer", .floatv⟩], v)
    | _ => ([⟨.invalid_type, [], "number", .ofValue v⟩], v)
  | .float, v =>
    match v with
    | .num q => ([], .num q)
    | _ => ([⟨.invalid_type, [], "number", .ofValue v⟩], v)
  | .boolean, v =>
    match v with
    | .bool b => ([], .bool b)
    | _ => ([⟨.invalid_type, [], "boolean", .ofValue v⟩], v)
  | .literal s, v =>
    match v with
    | .str s' =>
      if s' = s then ([], v)
      else ([⟨.invalid_literal, [], s, .ofValue v⟩], v)
    | _ => ([⟨.invalid_literal, [], s, .ofValue v⟩], v)
  | .enum vs, v =>
    match v with
    | .str s =>
      if s ∈ vs then ([], v)
      else ([⟨.invalid_enum_value, [], "", .stringv⟩], v)
    | _ => ([⟨.invalid_type, [], "string", .ofValue v⟩], v)
  | .array item, v =>
    match v with
    | .arr xs =>
      let results := xs.map (fun x => zodParse item x)
      let issues := (results.enum.map
        (fun p => p.2.1.map (prefixIssuePath (toString p.1)))).flatten
      (issues, .arr (results.map (fun r => r.2)))
    | _ => ([⟨.invalid_type, [], "array", .ofValue v⟩], v)
  | .objectStrip fields, v =>
    match v with
    | .obj kv =>
      let (issues, out) := zodParseFields fields kv
      (issues, .obj out)
    | _ => ([⟨.invalid_type, [], "object", .ofValue v⟩], v)
  | .objectStrict fields, v =>
    match v with
    | .obj kv =>
      let (issues, out) := zodParseFields fields kv
      let extraKeys := (kv.filter
        (fun p => !(fields.any (fun f => f.1 = p.1)))).map (fun p => p.1)
      if extraKeys.isEmpty then (issues, .obj out)
      else (issues ++ [⟨.unrecognized_keys, [], "", .objectv⟩], .obj out)
    | _ => ([⟨.invalid_type, [], "object", .ofValue v⟩], v)
  | .optional inner, v =>
    match v with
    | .undef => ([], .undef)
    | _ => zodParse inner v
  | .any, v => ([], v)

/-- Per-shape-key parsing of an object: each key's issues are prefixed
with the key; the output keeps a key when its parsed value is defined or
the key was present in the input (zod's `alwaysSet`). -/
def zodParseFields : List (String × ZodType) → List (String × JValue) →
    List ZIssue × List (String × JValue)
  | [], _ => ([], [])
  | (k, sch) :: rest, kv =>
    let v := jsGet kv k
    let (iss, pv) := zodParse sch v
    let (issR, outR) := zodParseFields rest kv
    (iss.map (prefixIssuePath k) ++ issR,
      (if !pv.isUndef || jsHasKey kv k then [(k, pv)] else []) ++ outR)
end

/-! ## The GraphQL type graph (as produced by `graphql.buildSchema`) -/

/-- A GraphQL type reference.  Named types carry their name; enum types
also carry their value list (`type.getValues()`); `nonNull` and `list`
are the wrapper kinds.  Fields of input/object types live in `GSchema`,
keyed by type name, so cyclic type graphs are representable. -/
inductive GType where
  | scalar (name : String) : GType
  | enum (name : String) (values : List String) : GType
  | inputObject (name : String) : GType
  | object (name : String) : GType
  | union (name : String) : GType
  | nonNull (inner : GType) : GType
  | list (inner : GType) : GType

def isNonNullType : GType → Bool
  | .nonNull _ => true
  | _ => false

def isListType : GType → Bool
  | .list _ => true
  | _ => false

def isScalarType : GType → Bool
  | .scalar _ => true
  | _ => false

def isEnumType : GType → Bool
  | .enum _ _ => true
  | _ => false

def isInputObjectType : GType → Bool
  | .inputObject _ => true
  | _ => false

def isObjectType : GType → Bool
  | .object _ => true
  | _ => false

/-- Printing of `GraphQLType.toString()`: named types print their name, `NonNull`
appends `!`, `List` wraps in square brackets. -/
def gtypeToString : GType → String
  | .scalar n => n
  | .enum n _ => n
  | .inputObject n => n
  | .object n => n
  | .union n => n
  | .nonNull inner => gtypeToString inner ++ "!"
  | .list inner => "[" ++ gtypeToString inner ++ "]"

/-- One declared argument (of an operation or of an object field). -/
structure GArgDef where
  name : String
  type : GType

/-- One field of an object type (or root operation field): its result
type, its declared arguments and its optional description. -/
structure GFieldDef where
  name : String
  type : GType
  args : List GArgDef
  description : Option String

/-- The type graph: field tables for input object types and object
types (keyed by type name), plus the root `Query` / `Mutation` /
`Subscription` field lists (an absent root type is an empty list). -/
structure GSchema where
  inputTypes : List (String × List (String × GType))
  objectTypes : List (String × List GFieldDef)
  queryFields : List GFieldDef
  mutationFields : List GFieldDef
  subscriptionFields : List GFieldDef

/-- Field lookup `type.getFields()` for an input object type. -/
def getInputFields (s : GSchema) (name : String) : List (String × GType) :=
  match s.inputTypes.find? (fun p => p.1 = name) with
  | some p => p.2
  | none => []

/-- Field lookup `type.getFields()` for an object type. -/
def getObjectFields (s : GSchema) (name : String) : List GFieldDef :=
  match s.objectTypes.find? (fun p => p.1 = name) with
  | some p => p.2
  | none => []

/-- The `ValidationOptions` record of `generate-validation.ts`; absent
fields are `undefined` and fall back with `||` to the defaults. -/
structure ValidationOptions where
  maxOperations : Option Nat := none
  maxFields : Option Nat := none
  maxOperationArgs : Option Nat := none
  maxSchemaDepth : Option Nat := none

/-- The process-wide `typeSchemaCache` (`Map<string, z.ZodTypeAny>`),
modelled as explicit state threaded through compilation. -/
def Cache := List (String × ZodType)

def cacheGet (c : Cache) (k : String) : Option ZodType :=
  match List.find? (fun p => p.1 = k) c with
  | some p => some p.2
  | none => none

def cacheSet (c : Cache) (k : String) (v : ZodType) : Cache :=
  (k, v) :: c

/-- Scalar mapping of `graphqlTypeToZodSchema`: `String`/`ID` map to
`z.string()`, `Int` to `z.number().int()`, `Float` to `z.number()`,
`Boolean` to `z.boolean()`, any custom scalar falls back to
`z.string()`. -/
def scalarZod (name : String) : ZodType :=
  if name = "String" then .string
  else if name = "Int" then .int
  else if name = "Float" then .float
  else if name = "Boolean" then .boolean
  else if name = "ID" then .string
  else .string

/-- The field loop of the input-object branch of
`graphqlTypeToZodSchema`, parametrised by the compilation of one field
type (each field's schema is compiled at the caller's `depth + 1` and
wrapped `.optional()` unless the field's declared type is `NonNull`);
the cache state threads left to right. -/
def inputFieldsLoop (compile : GType → Cache → Option (ZodType × Cache)) :
    List (String × GType) → Cache → Option (List (String × ZodType) × Cache)
  | [], cache => some ([], cache)
  | (fieldName, fieldType) :: rest, cache =>
    match compile fieldType cache with
    | none => none
    | some (fieldSchema0, c1) =>
      let fieldSchema :=
        if isNonNullType fieldType then fieldSchema0 else .optional fieldSchema0
      match inputFieldsLoop compile rest c1 with
      | none => none
      | some (flds, c2) => some ((fieldName, fieldSchema) :: flds, c2)

/-- Port of `graphqlTypeToZodSchema` of `generate-validation.ts`, with the global
cache made explicit state and an explicit fuel parameter (every
TypeScript-level recursive call increments `depth` and the function
returns as soon as `depth > maxSchemaDepth`, so — as proved below — any
fuel beyond that bound gives the same result; `none` means "fuel
exhausted" and is never reached from a sufficient fuel).

The `visitedTypes` set is passed downward: the source mutates one shared
set but every addition is removed again on return (`finally`), so at any
point the set holds exactly the names on the current descent path.  (The
`finally` of the enum branch also deletes the enum's name when the
circular-reference fallback fired; that is observable only if an input
object and an enum shared a name, which `buildSchema` rejects, so the
model keeps the set purely path-scoped.)  The `try`/`catch` fallbacks
for enum construction failures are dead code under zod v3 — `z.enum` on
a non-empty string array does not throw — and are not modelled. -/
def graphqlTypeToZodSchemaF (fuel : Nat) (t : GType) (s : GSchema)
    (visitedTypes : List String) (depth : Nat) (options : ValidationOptions)
    (cache : Cache) : Option (ZodType × Cache) :=
  match fuel with
  | 0 => none
  | f + 1 =>
    let maxSchemaDepth := jsOrNat options.maxSchemaDepth 10
    let maxFields := jsOrNat options.maxFields 100
    if depth > maxSchemaDepth then
      some (.optional .any, cache)
    else
      match t with
      | .nonNull inner =>
        graphqlTypeToZodSchemaF f inner s visitedTypes (depth + 1) options cache
      | .list inner =>
        match graphqlTypeToZodSchemaF f inner s visitedTypes (depth + 1) options cache with
        | none => none
        | some (itemSchema, c) => some (.array itemSchema, c)
      | .scalar name => some (scalarZod name, cache)
      | .enum name values =>
        let cacheKey := "enum_" ++ name
        match cacheGet cache cacheKey with
        | some sch => some (sch, cache)
        | none =>
          if visitedTypes.contains name then
            some (.string, cache)
          else
            match values with
            | [] => some (.string, cacheSet cache cacheKey .string)
            | [v] => some (.literal v, cacheSet cache cacheKey (.literal v))
            | _ => some (.enum values, cacheSet cache cacheKey (.enum values))
      | .inputObject name =>
        let cacheKey := "input_" ++ name
        match cacheGet cache cacheKey with
        | some sch => some (sch, cache)
        | none =>
          if visitedTypes.contains name then
            some (.optional (.objectStrip []), cache)
          else
            let fields := getInputFields s name
            match inputFieldsLoop
                (fun ft c => graphqlTypeToZodSchemaF f ft s (name :: visitedTypes)
                  (depth + 1) options c)
                (fields.take maxFields) cache with
            | none => none
            | some (zodObject, c) =>
              let zodSchema := ZodType.objectStrip zodObject
              some (zodSchema, cacheSet c cacheKey zodSchema)
      | .object _ => some (.any, cache)
      | .union _ => some (.any, cache)

/-- The field loop of the object branch of
`graphqlOutputTypeToZodSelectionSchema`, parametrised by the compilation
of one field's output type. -/
def selectionFieldsLoop (compile : GType → Cache → Option (ZodType × Cache)) :
    List GFieldDef → Cache → Option (List (String × ZodType) × Cache)
  | [], cache => some ([], cache)
  | fd :: rest, cache =>
    match compile fd.type cache with
    | none => none
    | some (fieldSelectionSchema, c1) =>
      match selectionFieldsLoop compile rest c1 with
      | none => none
      | some (flds, c2) => some ((fd.name, fieldSelectionSchema) :: flds, c2)

/-- Port of `graphqlOutputTypeToZodSelectionSchema` of
`generate-validation.ts`, fueled like the argument compiler.  The source copies the visited set
(`new Set(visitedTypes)`) before each field recursion, so child calls
see exactly `visitedTypes ∪ {name}`; the model passes that set down.
Union (and interface) return types match none of the tested kinds and
fall through to the terminal `z.boolean().optional()` fallback. -/
def graphqlOutputTypeToZodSelectionSchemaF (fuel : Nat) (t : GType) (s : GSchema)
    (visitedTypes : List String) (depth : Nat) (options : ValidationOptions)
    (cache : Cache) : Option (ZodType × Cache) :=
  match fuel with
  | 0 => none
  | f + 1 =>
    let maxSchemaDepth := jsOrNat options.maxSchemaDepth 10
    let maxFields := jsOrNat options.maxFields 50
    if depth > maxSchemaDepth then
      some (.optional .boolean, cache)
    else
      match t with
      | .nonNull inner =>
        graphqlOutputTypeToZodSelectionSchemaF f inner s visitedTypes (depth + 1) options cache
      | .list inner =>
        graphqlOutputTypeToZodSelectionSchemaF f inner s visitedTypes (depth + 1) options cache
      | .scalar _ => some (.optional .boolean, cache)
      | .enum _ _ => some (.optional .boolean, cache)
      | .object name =>
        let cacheKey := "output_" ++ name ++ "_" ++ toString depth
        match cacheGet cache cacheKey with
        | some sch => some (sch, cache)
        | none =>
          if visitedTypes.contains name then
            some (.optional (.objectStrip []), cache)
          else
            let fields := getObjectFields s name
            match selectionFieldsLoop
                (fun ft c => graphqlOutputTypeToZodSelectionSchemaF f ft s
                  (name :: visitedTypes) (depth + 1) options c)
                (fields.take maxFields) cache with
            | none => none
            | some (zodObject, c) =>
              let resultSchema := ZodType.optional (.objectStrict zodObject)
              some (resultSchema, cacheSet c cacheKey resultSchema)
      | .inputObject _ => some (.optional .boolean, cache)
      | .union _ => some (.optional .boolean, cache)

/-- Fuel that the stability theorem below proves sufficient for every
input: one unit per possible depth increment plus one. -/
def compileFuel (options : ValidationOptions) : Nat :=
  jsOrNat options.maxSchemaDepth 10 + 2

/-- The compiler `graphqlTypeToZodSchema` as called by the source
(sufficient fuel;
the fallback value of `getD` is unreachable, see the stability
theorem). -/
def graphqlTypeToZodSchema (t : GType) (s : GSchema) (visitedTypes : List String)
    (depth : Nat) (options : ValidationOptions) (cache : Cache) : ZodType × Cache :=
  (graphqlTypeToZodSchemaF (compileFuel options) t s visitedTypes depth options cache).getD
    (.any, cache)

/-- The compiler `graphqlOutputTypeToZodSelectionSchema` as called by
the source. -/
def graphqlOutputTypeToZodSelectionSchema (t : GType) (s : GSchema)
    (visitedTypes : List String) (depth : Nat) (options : ValidationOptions)
    (cache : Cache) : ZodType × Cache :=
  (graphqlOutputTypeToZodSelectionSchemaF (compileFuel options) t s visitedTypes depth
    options cache).getD (.optional .boolean, cache)

/-! ## Operations and the per-operation schema generators -/

inductive OpKind where
  | query | mutation | subscription
deriving DecidableEq, Repr

def OpKind.keyword : OpKind → String
  | .query => "query"
  | .mutation => "mutation"
  | .subscription => "subscription"

/-- One extracted operation record (`extractOperationsFromSchema`):
kind, (possibly prefixed) name, the underlying root field, the
transformed argument list and the description (`''` when absent). -/
structure Operation where
  type : OpKind
  name : String
  field : GFieldDef
  args : List GArgDef
  description : String

/-- The argument loop of `generateValidationSchemas`: compile each
argument's type from a fresh visited set at depth 0, wrapping
`.optional()` unless the argument is declared `NonNull`. -/
def operationArgsToZod (args : List GArgDef) (s : GSchema)
    (options : ValidationOptions) (cache : Cache) :
    List (String × ZodType) × Cache :=
  match args with
  | [] => ([], cache)
  | arg :: rest =>
    let (argSchema0, c1) := graphqlTypeToZodSchema arg.type s [] 0 options cache
    let argSchema :=
      if isNonNullType arg.type then argSchema0 else .optional argSchema0
    let (flds, c2) := operationArgsToZod rest s options c1
    ((arg.name, argSchema) :: flds, c2)

/-- Port of `generateValidationSchemas`: one zod object schema per
operation (up
to `maxOperations`, each with at most `maxOperationArgs` arguments); an
operation with no arguments gets the empty `z.object({})`.  The global
cache is threaded in entry order. -/
def generateValidationSchemasLoop (operations : List Operation) (s : GSchema)
    (options : ValidationOptions) (maxArgs : Nat) (cache : Cache) :
    List (String × ZodType) × Cache :=
  match operations with
  | [] => ([], cache)
  | op :: rest =>
    if op.args.length > 0 then
      let (zodObject, c1) := operationArgsToZod (op.args.take maxArgs) s options cache
      let (tail, c2) := generateValidationSchemasLoop rest s options maxArgs c1
      ((op.name, .objectStrip zodObject) :: tail, c2)
    else
      let (tail, c2) := generateValidationSchemasLoop rest s options maxArgs cache
      ((op.name, .objectStrip []) :: tail, c2)

def generateValidationSchemas (operations : List Operation) (s : GSchema)
    (options : ValidationOptions) (cache : Cache) :
    List (String × ZodType) × Cache :=
  let maxOperations := jsOrNat options.maxOperations 200
  let maxArgs := jsOrNat options.maxOperationArgs 50
  generateValidationSchemasLoop (operations.take maxOperations) s options maxArgs cache

/-- The unwrap block at the head of `createDefaultSelection`: strip one
`NonNull`, then one `List` (stripping one more `NonNull` inside it). -/
def unwrapNonNull : GType → GType
  | .nonNull inner => inner
  | t => t

def coreTypeOf (t : GType) : GType :=
  let c1 := unwrapNonNull t
  match c1 with
  | .list inner => unwrapNonNull inner
  | c => c

/-- The loop body of `createDefaultSelection`: skip a field with a
required (non-null) argument; otherwise select it (`true`) when its
type, unwrapped of one `NonNull`, is a scalar or enum, or is a list
whose item type (again unwrapped of one `NonNull`) is a scalar or
enum. -/
def defaultSelectionField (field : GFieldDef) : Option (String × Bool) :=
  if field.args.any (fun arg => isNonNullType arg.type) then
    none
  else
    let fieldType := unwrapNonNull field.type
    if isScalarType fieldType || isEnumType fieldType then
      some (field.name, true)
    else
      match fieldType with
      | .list inner =>
        let itemType := unwrapNonNull inner
        if isScalarType itemType || isEnumType itemType then
          some (field.name, true)
        else none
      | _ => none

/-- Port of `createDefaultSelection` of `generate-validation.ts`: on the
unwrapped object return type, select (with `true`) every first-layer
field that has no required (non-null) argument and whose type unwraps to
a scalar or enum, or to a list of scalars/enums. -/
def createDefaultSelection (s : GSchema) (t : GType) : List (String × Bool) :=
  match coreTypeOf t with
  | .object name => (getObjectFields s name).filterMap defaultSelectionField
  | _ => []

/-- The default selection as the JavaScript object the transform
returns. -/
def defaultsAsValue (defaults : List (String × Bool)) : JValue :=
  .obj (defaults.map (fun p => (p.1, .bool p.2)))

/-- The compiled output-selection schema of one operation: the base zod
schema plus the transform's captured default selection
(`selectionSchema.transform(...)` in `generateOutputSelectionSchemas`). -/
structure OutputSchema where
  base : ZodType
  defaults : List (String × Bool)

/-- The transform attached in `generateOutputSelectionSchemas`: replace
a falsy or empty-object parsed value by the default selection, pass
anything else through unchanged.  (zod runs a `.transform` only after
the base schema accepted the input.) -/
def applyDefaultsTransform (defaults : List (String × Bool)) (value : JValue) : JValue :=
  if jsFalsy value then defaultsAsValue defaults
  else
    match value with
    | .obj kv => if kv.isEmpty then defaultsAsValue defaults else value
    | .arr xs => if xs.isEmpty then defaultsAsValue defaults else value
    | _ => value

/-- Parsing (`.parse`) on the transformed output schema: issues of the
base schema
(failure leaves the value untouched), then the default-substituting
transform on success. -/
def outputSchemaParse (os : OutputSchema) (v : JValue) : List ZIssue × JValue :=
  let (issues, pv) := zodParse os.base v
  if issues.isEmpty then ([], applyDefaultsTransform os.defaults pv)
  else (issues, pv)

/-- Port of `generateOutputSelectionSchemas`: per operation (up to
`maxOperations`), compile the selection schema of the return type from a
fresh visited set at depth 0 and pair it with that type's default
selection.  (The surrounding `try`/`catch` is unreachable in the model:
no modelled step throws.) -/
def generateOutputSelectionSchemasLoop (operations : List Operation) (s : GSchema)
    (options : ValidationOptions) (cache : Cache) :
    List (String × OutputSchema) × Cache :=
  match operations with
  | [] => ([], cache)
  | op :: rest =>
    let returnType := op.field.type
    let (selectionSchema, c1) :=
      graphqlOutputTypeToZodSelectionSchema returnType s [] 0 options cache
    let defaultSelection := createDefaultSelection s returnType
    let (tail, c2) := generateOutputSelectionSchemasLoop rest s options c1
    ((op.name, ⟨selectionSchema, defaultSelection⟩) :: tail, c2)

def generateOutputSelectionSchemas (operations : List Operation) (s : GSchema)
    (options : ValidationOptions) (cache : Cache) :
    List (String × OutputSchema) × Cache :=
  let maxOperations := jsOrNat options.maxOperations 200
  generateOutputSelectionSchemasLoop (operations.take maxOperations) s options cache

/-! ## The query renderer (`generate-query-string.ts`) -/

/-- Test `/^[A-Z]/.test(fieldName)`: a key starting with an ASCII
uppercase
letter is treated as a type name (inline-fragment discriminator). -/
def isTypeName (fieldName : String) : Bool :=
  match fieldName.toList with
  | [] => false
  | c :: _ => 'A' ≤ c && c ≤ 'Z'

def lbr : String := "\x7b"

def rbr : String := "\x7d"

mutual
/-- One iteration of the `buildFieldSelectionString` loop, for the entry
`fieldName: value`: `true` emits the bare field name, `false` is
skipped, a non-null object value recurses (`... on Name { ... }` when
the key starts with an uppercase letter, `name { ... }` otherwise) and
is dropped entirely when the recursion yields no fields; every other
value (including `null` and `undefined`) is skipped.  (JavaScript would
also recurse into arrays via `Object.entries`; selections are
string-keyed mappings, so array values are not modelled.) -/
def renderEntryValue (fieldName : String) : JValue → List String
  | .bool true => [fieldName]
  | .bool false => []
  | .obj entries =>
    let nestedFields := " ".intercalate (buildFieldList entries)
    if nestedFields = "" then []
    else if isTypeName fieldName then
      ["... on " ++ fieldName ++ " " ++ lbr ++ " " ++ nestedFields ++ " " ++ rbr]
    else
      [fieldName ++ " " ++ lbr ++ " " ++ nestedFields ++ " " ++ rbr]
  | _ => []

/-- The `fields` array built by `buildFieldSelectionString`'s
`for ... of Object.entries(selection)` loop. -/
def buildFieldList : List (String × JValue) → List String
  | [] => []
  | (fieldName, value) :: rest =>
    renderEntryValue fieldName value ++ buildFieldList rest
end

/-- Port of `buildFieldSelectionString`: the rendered field strings
joined with
single spaces. -/
def buildFieldSelectionString (selection : List (String × JValue)) : String :=
  " ".intercalate (buildFieldList selection)

/-- JavaScript `String.prototype.trim`: strip leading and trailing
whitespace. -/
def jsTrim (s : String) : String :=
  String.mk (((s.toList.dropWhile Char.isWhitespace).reverse.dropWhile
    Char.isWhitespace).reverse)

/-- The renderer's failure: `Missing required variable: <name>`. -/
inductive RenderError where
  | missingVariable (name : String)
deriving DecidableEq, Repr

/-- Port of `generateQueryString` (the current draft of
`generate-query-string.ts`, the one imported by `schema-parser.ts`):
check that every non-null declared argument has a key in `variables`,
then assemble the document; parenthesised variable declarations and
argument bindings appear only when the operation has arguments, and the
call site gets a selection block only when the rendered field list is
non-empty.  (The unused-variable `console.warn` loop has no effect on
the result and is not modelled.) -/
def generateQueryString (operation : Operation)
    (vars : List (String × JValue)) (fieldSelection : JValue) :
    Except RenderError String :=
  match operation.args.find?
      (fun arg => !jsHasKey vars arg.name && isNonNullType arg.type) with
  | some arg => .error (.missingVariable arg.name)
  | none =>
    let args := ", ".intercalate (operation.args.map
      (fun arg => "$" ++ arg.name ++ ": " ++ gtypeToString arg.type))
    let fieldArgs := ", ".intercalate (operation.args.map
      (fun arg => arg.name ++ ": $" ++ arg.name))
    let fieldsToSelect :=
      match fieldSelection with
      | .obj entries => buildFieldSelectionString entries
      | _ => ""
    let fieldArgsStr := if fieldArgs ≠ "" then "(" ++ fieldArgs ++ ")" else ""
    let operationCall :=
      if fieldsToSelect ≠ "" ∧ jsTrim fieldsToSelect ≠ "" then
        operation.name ++ fieldArgsStr ++ " " ++ lbr ++ " " ++ fieldsToSelect ++ " " ++ rbr
      else
        operation.name ++ fieldArgsStr
    let argsStr := if args ≠ "" then "(" ++ args ++ ")" else ""
    .ok (operation.type.keyword ++ " " ++ operation.name ++ argsStr ++ " " ++
      lbr ++ " " ++ operationCall ++ " " ++ rbr)

/-! ## Configuration and operation extraction (`schema-parser.ts`) -/

/-- The `Config` record.  Absent fields are `undefined`.  The three
prefix options of the source (`queryPrefix`, `mutationPrefix`,
`subscriptionPrefix`) are named `queryPre`, `mutationPre`,
`subscriptionPre` here. -/
structure Config where
  mutation : Option Bool := none
  subscription : Option Bool := none
  query : Option Bool := none
  queryPre : Option String := none
  mutationPre : Option String := none
  subscriptionPre : Option String := none
  ignorePhrase : Option String := none
  maxOperations : Option Nat := none
  maxOperationArgs : Option Nat := none
  maxSchemaDepth : Option Nat := none
  maxFields : Option Nat := none

/-- The `defaultConfig` of `schema-parser.ts` (note the source's default
ignore phrase is literally `NO_MPC_TOOL`). -/
def defaultConfig : Config :=
  { mutation := some false
    subscription := some false
    query := some true
    queryPre := some ""
    mutationPre := some ""
    subscriptionPre := some ""
    ignorePhrase := some "NO_MPC_TOOL"
    maxOperations := some 200
    maxOperationArgs := some 50
    maxSchemaDepth := some 10
    maxFields := some 100 }

/-- The validation options `schemaParser` passes on. -/
def validationOptionsOf (config : Config) : ValidationOptions :=
  { maxOperations := some (jsOrNat config.maxOperations 200)
    maxFields := some (jsOrNat config.maxFields 100)
    maxOperationArgs := some (jsOrNat config.maxOperationArgs 50)
    maxSchemaDepth := some (jsOrNat config.maxSchemaDepth 10) }

/-- The skip test of the extraction loops:
`field.description && config.ignorePhrase &&
field.description.includes(config.ignorePhrase)`. -/
def ignoreField (field : GFieldDef) (config : Config) : Bool :=
  match field.description, config.ignorePhrase with
  | some d, some p => d ≠ "" && p ≠ "" && strIncludes d p
  | _, _ => false

/-- One extraction loop (queries, mutations or subscriptions): skip
ignored fields, skip duplicate `<kind>-<fieldName>` entries, prefix the
operation name, keep the field and its transformed arguments. -/
def extractLoop (kind : OpKind) (fields : List GFieldDef) (pre : String)
    (config : Config) (seen : List String) : List Operation :=
  match fields with
  | [] => []
  | field :: rest =>
    if ignoreField field config then
      extractLoop kind rest pre config seen
    else
      let uniqueName := kind.keyword ++ "-" ++ field.name
      if seen.contains uniqueName then
        extractLoop kind rest pre config seen
      else
        { type := kind
          name := pre ++ field.name
          field := field
          args := field.args
          description := jsOrStr field.description "" } ::
          extractLoop kind rest pre config (uniqueName :: seen)

/-- Port of `extractOperationsFromSchema`: queries unless `config.query`
is
`false`, mutations/subscriptions only when explicitly `true`. -/
def extractOperationsFromSchema (s : GSchema) (config : Config) : List Operation :=
  (if config.query ≠ some false then
    extractLoop .query s.queryFields (jsOrStr config.queryPre "") config []
  else []) ++
  (if config.mutation = some true then
    extractLoop .mutation s.mutationFields (jsOrStr config.mutationPre "") config []
  else []) ++
  (if config.subscription = some true then
    extractLoop .subscription s.subscriptionFields (jsOrStr config.subscriptionPre "") config []
  else [])

/-! ## The per-tool `execution` closure -/

/-- The errors `execution` can raise.  Both the validation branch and
the renderer produce the user-facing message
`Missing required variable: <name>`, modelled by the single first
constructor. -/
inductive ExecError where
  | missingRequiredVariable (name : String)
  | invalidTypeVariable (name : String) (expected : String) (received : ZReceived)
  | validationFailed (opName : String)
deriving DecidableEq, Repr

/-- The zod-error translation inside `execution`: scan all issues for a
missing required field first (`invalid_type` with `received:
'undefined'`), then for a type mismatch (`invalid_type` with any other
`received`), falling back to the generic validation failure.  The
reported name is `issue.path[0]` (JavaScript renders an absent entry as
the string `undefined`). -/
def executionErrorOfIssues (opName : String) (issues : List ZIssue) : ExecError :=
  match issues.find? (fun i =>
      i.code = ZIssueCode.invalid_type && i.received = ZReceived.undef) with
  | some issue => .missingRequiredVariable (issue.path.headD "undefined")
  | none =>
    match issues.find? (fun i =>
        i.code = ZIssueCode.invalid_type && !(i.received = ZReceived.undef)) with
    | some issue =>
      .invalidTypeVariable (issue.path.headD "undefined") issue.expected issue.received
    | none => .validationFailed opName

def objEntriesOf : JValue → List (String × JValue)
  | .obj kv => kv
  | _ => []

/-- The `execution` closure built by `schemaParser` for one tool:
validate the variables with the operation's compiled schema (replacing
them by the validated value), translating a zod failure through
`executionErrorOfIssues`; then render the query string, whose own
missing-variable check surfaces as the same user-facing error. -/
def execution (operation : Operation) (validationSchema : Option ZodType)
    (vars : List (String × JValue)) (selectedFields : JValue) :
    Except ExecError (String × List (String × JValue)) :=
  let validated :=
    match validationSchema with
    | none => Except.ok vars
    | some schema =>
      let (issues, pv) := zodParse schema (.obj vars)
      if issues.isEmpty then Except.ok (objEntriesOf pv)
      else Except.error (executionErrorOfIssues operation.name issues)
  match validated with
  | .error e => .error e
  | .ok validatedVars =>
    match generateQueryString operation validatedVars selectedFields with
    | .error (.missingVariable n) => .error (.missingRequiredVariable n)
    | .ok query => .ok (query, validatedVars)

def assocGet (l : List (String × α)) (k : String) : Option α :=
  match l.find? (fun p => p.1 = k) with
  | some p => some p.2
  | none => none

/-- The end-to-end per-tool execution as `schemaParser` wires it up:
extract the operations, compile the validation schemas (from an empty
process-wide cache) and run one operation's `execution`. -/
def toolExecution (s : GSchema) (config : Config) (operation : Operation)
    (vars : List (String × JValue)) (selectedFields : JValue) :
    Except ExecError (String × List (String × JValue)) :=
  let options := validationOptionsOf config
  let operations := extractOperationsFromSchema s config
  let validationSchemas := (generateValidationSchemas operations s options []).1
  execution operation (assocGet validationSchemas operation.name) vars selectedFields

/-! ## Concrete fixtures used by witnesses and counterexamples -/

/-- Schema `type User { id: ID }` with `type Query { getUser: User }`. -/
def exSchemaUser : GSchema :=
  ⟨[], [("User", [⟨"id", .scalar "ID", [], none⟩])],
    [⟨"getUser", .object "User", [], none⟩], [], []⟩

def exOpGetUser : Operation :=
  ⟨.query, "getUser", ⟨"getUser", .object "User", [], none⟩, [], ""⟩

/-- A schema with no named types (operations with scalar arguments only
need this much). -/
def exSchemaEmpty : GSchema := ⟨[], [], [], [], []⟩

/-- Operation `user(id: ID!, name: String): String`. -/
def exOpUserArgs : Operation :=
  ⟨.query, "user", ⟨"user", .scalar "String", [], none⟩,
    [⟨"id", .nonNull (.scalar "ID")⟩, ⟨"name", .scalar "String"⟩], ""⟩

/-- Operation `users: String` — it declares zero arguments. -/
def exOpUsers : Operation :=
  ⟨.query, "users", ⟨"users", .scalar "String", [], none⟩, [], ""⟩

/-- Schema `union Pet = Dog | Cat` with `getPet: Pet`. -/
def exSchemaPet : GSchema :=
  ⟨[],
    [("Dog", [⟨"breed", .scalar "String", [], none⟩]),
     ("Cat", [⟨"color", .scalar "String", [], none⟩])],
    [⟨"getPet", .union "Pet", [], none⟩], [], []⟩

def exOpGetPet : Operation :=
  ⟨.query, "getPet", ⟨"getPet", .union "Pet", [], none⟩, [], ""⟩

/-- The cyclic graph `type A { b: B }  type B { a: A }` (and the same
cycle between input objects). -/
def exSchemaAB : GSchema :=
  ⟨[("A", [("b", .inputObject "B")]), ("B", [("a", .inputObject "A")])],
    [("A", [⟨"b", .object "B", [], none⟩]), ("B", [⟨"a", .object "A", [], none⟩])],
    [], [], []⟩

/-- A root field whose description contains the phrase `NO_MCP_TOOL`. -/
def exSchemaHealth : GSchema :=
  ⟨[], [],
    [⟨"health", .scalar "String", [], some "Internal health check endpoint - NO_MCP_TOOL"⟩],
    [], []⟩

/-- The same root field with the source's literal default phrase
`NO_MPC_TOOL` in the description. -/
def exSchemaHealthMPC : GSchema :=
  ⟨[], [],
    [⟨"health", .scalar "String", [], some "Internal health check endpoint - NO_MPC_TOOL"⟩],
    [], []⟩

/-- First schema of the cache-interference pair: `input Foo { a: Int }`. -/
def exSchemaFooNullable : GSchema :=
  ⟨[("Foo", [("a", .scalar "Int")])], [], [], [], []⟩

/-- Second schema: `input Foo { a: Int! }` (same type name, different
fields). -/
def exSchemaFooRequired : GSchema :=
  ⟨[("Foo", [("a", .nonNull (.scalar "Int"))])], [], [], [], []⟩

def exOpP1 : Operation :=
  ⟨.query, "p1", ⟨"p1", .scalar "String", [], none⟩, [⟨"x", .inputObject "Foo"⟩], ""⟩

def exOpP2 : Operation :=
  ⟨.query, "p2", ⟨"p2", .scalar "String", [], none⟩, [⟨"y", .inputObject "Foo"⟩], ""⟩

/-! ## C4: characterization of the default selection -/

theorem defaultSelectionField_eq_some (field : GFieldDef) (f : String) (b : Bool) :
    defaultSelectionField field = some (f, b) ↔
      f = field.name ∧ b = true ∧
      (¬ ∃ arg ∈ field.args, isNonNullType arg.type = true) ∧
      (isScalarType (unwrapNonNull field.type) = true ∨
       isEnumType (unwrapNonNull field.type) = true ∨
       ∃ inner, unwrapNonNull field.type = GType.list inner ∧
         (isScalarType (unwrapNonNull inner) = true ∨
          isEnumType (unwrapNonNull inner) = true)) := by
  unfold defaultSelectionField
  rcases hreq : field.args.any (fun arg => isNonNullType arg.type) with _ | _
  · have hreq' : ¬ ∃ arg ∈ field.args, isNonNullType arg.type = true := by
      rw [← List.any_eq_true]
      simp [hreq]
    simp only [Bool.false_eq_true, if_false]
    cases hft : unwrapNonNull field.type with
    | scalar n =>
      simp [isScalarType, isEnumType, hreq']
      try exact fun _ => eq_comm
    | enum n vs =>
      simp [isScalarType, isEnumType, hreq']
      try exact fun _ => eq_comm
    | inputObject n =>
      simp [isScalarType, isEnumType, hreq']
    | object n =>
      simp [isScalarType, isEnumType, hreq']
    | union n =>
      simp [isScalarType, isEnumType, hreq']
    | nonNull inner =>
      simp [isScalarType, isEnumType, hreq']
    | list inner =>
      rcases hsc : isScalarType (unwrapNonNull inner) with _ | _ <;>
        rcases hen : isEnumType (unwrapNonNull inner) with _ | _ <;>
        simp [isScalarType, isEnumType, hreq', hsc, hen] <;>
        try first
          | exact fun _ => eq_comm
          | exact ⟨fun h => ⟨h.2.1.symm, h.2.2, h.1⟩,
              fun h => ⟨h.2.2, h.1.symm, h.2.1⟩⟩
  · have hreq' : ∃ arg ∈ field.args, isNonNullType arg.type = true :=
      List.any_eq_true.mp hreq
    simp only [if_true]
    simp [hreq']

/-- C4: for every object return type, the computed default selection
contains exactly those field names whose field declares no non-null
argument and whose unwrapped type is a scalar or enum, or a list whose
unwrapped item type is a scalar or enum; in particular, a field with at
least one non-null argument never appears as a key in the default
selection. -/
theorem C4_default_selection_exact (s : GSchema) (t : GType) (f : String) (b : Bool) :
    ((f, b) ∈ createDefaultSelection s t ↔
      b = true ∧
      ∃ name, coreTypeOf t = GType.object name ∧
        ∃ field ∈ getObjectFields s name, f = field.name ∧
          (¬ ∃ arg ∈ field.args, isNonNullType arg.type = true) ∧
          (isScalarType (unwrapNonNull field.type) = true ∨
           isEnumType (unwrapNonNull field.type) = true ∨
           ∃ inner, unwrapNonNull field.type = GType.list inner ∧
             (isScalarType (unwrapNonNull inner) = true ∨
              isEnumType (unwrapNonNull inner) = true))) ∧
    (∀ name, coreTypeOf t = GType.object name →
      ∀ field ∈ getObjectFields s name,
        (∃ arg ∈ field.args, isNonNullType arg.type = true) →
        (f, b) ∈ createDefaultSelection s t → f ≠ field.name ∨
          ∃ field' ∈ getObjectFields s name, f = field'.name ∧
            ¬ ∃ arg ∈ field'.args, isNonNullType arg.type = true) := by
  constructor
  · unfold createDefaultSelection
    cases hcore : coreTypeOf t with
    | object name =>
      rw [List.mem_filterMap]
      constructor
      · rintro ⟨field, hmem, hsome⟩
        obtain ⟨h1, h2, h3, h4⟩ := (defaultSelectionField_eq_some field f b).mp hsome
        exact ⟨h2, name, rfl, field, hmem, h1, h3, h4⟩
      · rintro ⟨hb, name', hname', field, hmem, h1, h3, h4⟩
        cases hname'
        exact ⟨field, hmem, (defaultSelectionField_eq_some field f b).mpr ⟨h1, hb, h3, h4⟩⟩
    | scalar n => simp [hcore]
    | enum n vs => simp [hcore]
    | inputObject n => simp [hcore]
    | union n => simp [hcore]
    | nonNull inner => simp [hcore]
    | list inner => simp [hcore]
  · intro name hcore field hfmem hreq hin
    by_cases hf : f = field.name
    · right
      unfold createDefaultSelection at hin
      rw [hcore, List.mem_filterMap] at hin
      obtain ⟨field', hmem', hsome'⟩ := hin
      obtain ⟨h1, -, h3, -⟩ := (defaultSelectionField_eq_some field' f b).mp hsome'
      exact ⟨field', hmem', h1, h3⟩
    · exact Or.inl hf

/-! ## C6: the renderer's per-key behaviour -/

/-- C6: the renderer emits the bare field name for a `true` value, omits
`false` and `null`/`undefined` values, renders a non-empty nested
mapping in braces under its key (as an inline fragment `... on Key` when
the key starts with an uppercase letter), and omits entirely any key
whose nested mapping renders no fields; an empty selection renders the
empty field list. -/
theorem C6_renderer_cases (k : String) (v : JValue) (rest : List (String × JValue))
    (es : List (String × JValue)) :
    (buildFieldList ((k, JValue.bool true) :: rest) = k :: buildFieldList rest)
    ∧ (v = JValue.bool false ∨ v = JValue.null ∨ v = JValue.undef →
        buildFieldList ((k, v) :: rest) = buildFieldList rest)
    ∧ (buildFieldSelectionString es = "" →
        buildFieldList ((k, JValue.obj es) :: rest) = buildFieldList rest)
    ∧ (buildFieldSelectionString es ≠ "" → isTypeName k = true →
        buildFieldList ((k, JValue.obj es) :: rest) =
          ("... on " ++ k ++ " " ++ lbr ++ " " ++ buildFieldSelectionString es ++ " " ++ rbr)
            :: buildFieldList rest)
    ∧ (buildFieldSelectionString es ≠ "" → isTypeName k = false →
        buildFieldList ((k, JValue.obj es) :: rest) =
          (k ++ " " ++ lbr ++ " " ++ buildFieldSelectionString es ++ " " ++ rbr)
            :: buildFieldList rest)
    ∧ buildFieldSelectionString [] = "" := by
  simp only [buildFieldSelectionString]
  refine ⟨rfl, ?_, ?_, ?_, ?_, rfl⟩
  · rintro (rfl | rfl | rfl) <;> rfl
  · intro h
    simp [buildFieldList, renderEntryValue, h]
  · intro h ht
    simp [buildFieldList, renderEntryValue, h, ht]
  · intro h ht
    simp [buildFieldList, renderEntryValue, h, ht]

/-- Witness for C6, following the spec's union example: the selection
`{ __typename: true, Dog: { breed: true } }` renders the field list
`__typename ... on Dog { breed }`. -/
theorem C6_renderer_cases_witness :
    buildFieldSelectionString
        [("__typename", JValue.bool true), ("Dog", JValue.obj [("breed", JValue.bool true)])] =
      "__typename ... on Dog " ++ lbr ++ " breed " ++ rbr ∧
    isTypeName "Dog" = true := by
  have h1 := (C6_renderer_cases "__typename" (JValue.bool true)
    [("Dog", JValue.obj [("breed", JValue.bool true)])] []).1
  have h4 := ((C6_renderer_cases "Dog" (JValue.bool true) []
    [("breed", JValue.bool true)]).2.2.2).1
  refine ⟨?_, by decide⟩
  rw [buildFieldSelectionString, h1, h4 (by decide) (by decide)]
  decide

/-! ## C8: the default ignore phrase -/

/-- C8 (code evaluation): under the default configuration the source's
ignore phrase is the literal `NO_MPC_TOOL`, so a root `Query` field
whose description contains `NO_MCP_TOOL` is **not** dropped — it still
yields an operation — while a description containing the source's
literal `NO_MPC_TOOL` is dropped. -/
theorem C8_code_evaluation :
    defaultConfig.ignorePhrase = some "NO_MPC_TOOL" ∧
    (extractOperationsFromSchema exSchemaHealth defaultConfig).map
      (fun o => o.name) = ["health"] ∧
    (extractOperationsFromSchema exSchemaHealthMPC defaultConfig).map
      (fun o => o.name) = [] := by
  refine ⟨rfl, by decide, by decide⟩

/-! ## C7: the zero-argument validator -/

/-- Membership in the compiled validation-schema list: every operation
in the processed window with no arguments is paired with the empty
`z.object({})`. -/
theorem generateValidationSchemasLoop_zero_args (operations : List Operation)
    (s : GSchema) (options : ValidationOptions) (maxArgs : Nat) :
    ∀ cache op, op ∈ operations → op.args = [] →
      (op.name, ZodType.objectStrip []) ∈
        (generateValidationSchemasLoop operations s options maxArgs cache).1 := by
  induction operations with
  | nil => intro cache op h; exact absurd h (List.not_mem_nil op)
  | cons head tail ih =>
    intro cache op hmem hargs
    rcases List.mem_cons.mp hmem with rfl | htail
    · rw [generateValidationSchemasLoop]
      simp [hargs]
    · rw [generateValidationSchemasLoop]
      by_cases hlen : head.args.length > 0
      · simp only [hlen, if_true]
        exact List.mem_cons_of_mem _
          (ih (operationArgsToZod (head.args.take maxArgs) s options cache).2 op htail hargs)
      · simp only [hlen, if_false]
        exact List.mem_cons_of_mem _ (ih cache op htail hargs)

/-- C7 (amended): an operation declaring zero arguments compiles to the
empty strip-mode object schema `z.object({})`, which accepts the empty
mapping and also accepts **every** mapping, stripping all its keys (the
parsed result is always `{}`); only non-mapping inputs are rejected. -/
theorem C7_amended (operations : List Operation) (s : GSchema)
    (options : ValidationOptions) (cache : Cache) (op : Operation)
    (hmem : op ∈ operations.take (jsOrNat options.maxOperations 200))
    (hargs : op.args = []) :
    (op.name, ZodType.objectStrip []) ∈
      (generateValidationSchemas operations s options cache).1 ∧
    (∀ kv, zodParse (ZodType.objectStrip []) (JValue.obj kv) = ([], JValue.obj [])) ∧
    (∀ v, (∀ kv, v ≠ JValue.obj kv) →
      (zodParse (ZodType.objectStrip []) v).1 ≠ []) := by
  refine ⟨?_, ?_, ?_⟩
  · exact generateValidationSchemasLoop_zero_args _ s options _ cache op hmem hargs
  · intro kv
    rw [zodParse]
    rfl
  · intro v hv
    cases v with
    | obj kv => exact absurd rfl (hv kv)
    | undef => simp [zodParse]
    | null => simp [zodParse]
    | bool b => simp [zodParse]
    | num q => simp [zodParse]
    | str s => simp [zodParse]
    | arr xs => simp [zodParse]

/-- Witness for C7 (amended), at a concrete zero-argument operation
`users`. -/
theorem C7_amended_witness :
    ("users", ZodType.objectStrip []) ∈
      (generateValidationSchemas [exOpUsers] exSchemaEmpty {} []).1 ∧
    zodParse (ZodType.objectStrip []) (JValue.obj []) = ([], JValue.obj []) := by
  have h := C7_amended [exOpUsers] exSchemaEmpty {} [] exOpUsers
    (List.mem_singleton.mpr rfl) rfl
  exact ⟨h.1, h.2.1 []⟩

/-- Counterexample for C7 as stated: the compiled validator of the
zero-argument operation `users` does **not** reject a variables mapping
containing a key — `{ x: 1 }` parses without issues (to `{}`). -/
theorem C7_counterexample :
    (generateValidationSchemas [exOpUsers] exSchemaEmpty {} []).1 =
      [("users", ZodType.objectStrip [])] ∧
    (zodParse (ZodType.objectStrip []) (JValue.obj [("x", JValue.num 1)])).1 = [] := by
  constructor
  · rfl
  · rfl

/-! ## C5: error-reporting priority of `execution` -/

/-- Lemma that `find?` returns the first match: the list splits around
the found
element with no earlier match. -/
theorem find?_first {α} (p : α → Bool) :
    ∀ (l : List α) (a : α), l.find? p = some a →
      ∃ pre post, l = pre ++ a :: post ∧ ∀ x ∈ pre, p x = false := by
  intro l
  induction l with
  | nil => intro a h; simp [List.find?] at h
  | cons head tail ih =>
    intro a h
    rw [List.find?] at h
    rcases hp : p head with _ | _
    · rw [hp] at h
      obtain ⟨pre, post, heq, hpre⟩ := ih a h
      exact ⟨head :: pre, post, by rw [heq]; rfl,
        fun x hx => by
          rcases List.mem_cons.mp hx with rfl | hx'
          · exact hp
          · exact hpre x hx'⟩
    · rw [hp] at h
      injection h with h
      exact ⟨[], tail, by rw [h]; rfl, by intro x hx; exact absurd hx (List.not_mem_nil x)⟩

/-- C5: whenever validating the variables of an operation produces both
a missing-required issue (`invalid_type` received `undefined`) and a
type-mismatch issue (`invalid_type` with any other `received`), the
error `execution` reports is the missing-required error naming the first
missing issue's `path[0]`; a type-mismatch error is reported only when
no missing-required issue exists. -/
theorem C5_missing_required_first (opName : String) (schema : ZodType) (v : JValue)
    (hmiss : ∃ i ∈ (zodParse schema v).1,
      i.code = ZIssueCode.invalid_type ∧ i.received = ZReceived.undef)
    (hmismatch : ∃ i ∈ (zodParse schema v).1,
      i.code = ZIssueCode.invalid_type ∧ i.received ≠ ZReceived.undef) :
    (∃ i pre post, (zodParse schema v).1 = pre ++ i :: post ∧
      i.code = ZIssueCode.invalid_type ∧ i.received = ZReceived.undef ∧
      (∀ j ∈ pre, ¬ (j.code = ZIssueCode.invalid_type ∧ j.received = ZReceived.undef)) ∧
      executionErrorOfIssues opName (zodParse schema v).1 =
        ExecError.missingRequiredVariable (i.path.headD "undefined")) ∧
    (∀ n e r, executionErrorOfIssues opName (zodParse schema v).1 =
      ExecError.invalidTypeVariable n e r →
        ¬ ∃ i ∈ (zodParse schema v).1,
          i.code = ZIssueCode.invalid_type ∧ i.received = ZReceived.undef) := by
  have hfind : ((zodParse schema v).1.find? (fun i =>
      i.code = ZIssueCode.invalid_type && i.received = ZReceived.undef)).isSome := by
    obtain ⟨i, hi, h1, h2⟩ := hmiss
    rw [List.find?_isSome]
    exact ⟨i, hi, by simp [h1, h2]⟩
  obtain ⟨i, hi⟩ := Option.isSome_iff_exists.mp hfind
  constructor
  · obtain ⟨pre, post, heq, hpre⟩ := find?_first _ _ _ hi
    have hip := List.find?_some hi
    simp only [Bool.and_eq_true, decide_eq_true_eq] at hip
    refine ⟨i, pre, post, heq, hip.1, hip.2, ?_, ?_⟩
    · intro j hj hcon
      have := hpre j hj
      simp [hcon.1, hcon.2] at this
    · unfold executionErrorOfIssues
      rw [hi]
  · intro n e r herr
    unfold executionErrorOfIssues at herr
    rw [hi] at herr
    exact absurd herr (by simp)

/-- Witness for C5, at the spec's example: `id: ID!` is absent from the
variables and `name` is a number instead of a string; the compiled
operation validator reports both issues, and the error names `id`. -/
theorem C5_missing_required_first_witness :
    (assocGet (generateValidationSchemas [exOpUserArgs] exSchemaEmpty {} []).1 "user" =
      some (ZodType.objectStrip
        [("id", ZodType.string), ("name", ZodType.optional ZodType.string)])) ∧
    executionErrorOfIssues "user"
        (zodParse (ZodType.objectStrip
          [("id", ZodType.string), ("name", ZodType.optional ZodType.string)])
          (JValue.obj [("name", JValue.num 42)])).1 =
      ExecError.missingRequiredVariable "id" := by
  refine ⟨rfl, ?_⟩
  obtain ⟨⟨i, pre, post, heq, hc, hr, hpre, herr⟩, -⟩ :=
    C5_missing_required_first "user"
      (ZodType.objectStrip
        [("id", ZodType.string), ("name", ZodType.optional ZodType.string)])
      (JValue.obj [("name", JValue.num 42)])
      ⟨⟨ZIssueCode.invalid_type, ["id"], "string", ZReceived.undef⟩, by decide, by decide, by decide⟩
      ⟨⟨ZIssueCode.invalid_type, ["name"], "string", ZReceived.numberv⟩, by decide, by decide, by decide⟩
  rw [herr]
  have : i = ⟨ZIssueCode.invalid_type, ["id"], "string", ZReceived.undef⟩ := by
    have hlist : (zodParse (ZodType.objectStrip
        [("id", ZodType.string), ("name", ZodType.optional ZodType.string)])
        (JValue.obj [("name", JValue.num 42)])).1 =
        [⟨ZIssueCode.invalid_type, ["id"], "string", ZReceived.undef⟩,
         ⟨ZIssueCode.invalid_type, ["name"], "string", ZReceived.numberv⟩] := by decide
    rw [hlist] at heq
    rcases pre with _ | ⟨p0, pre'⟩
    · rw [List.nil_append] at heq
      injection heq with h1 h2
      exact h1.symm
    · exfalso
      have hp0 : p0 = ⟨ZIssueCode.invalid_type, ["id"], "string", ZReceived.undef⟩ := by
        have := congrArg (fun l => l.headD ⟨ZIssueCode.invalid_type, [], "", ZReceived.undef⟩) heq
        simpa using this.symm
      exact hpre p0 (List.mem_cons_self _ _) (by rw [hp0]; exact ⟨rfl, rfl⟩)
  rw [this]
  rfl

/-! ## C3: union output types -/

/-- C3 (amended): for every Union output type the compiled selection
validator is the terminal fallback `z.boolean().optional()` — it is not
keyed by the union's member-type names; it accepts only `true`/`false`
or an absent selection and rejects every object-shaped (member-keyed)
selection.  Member-type keys act as inline-fragment keys only in the
query renderer, through its uppercase-first-letter heuristic. -/
theorem C3_amended (name : String) (s : GSchema) (visited : List String)
    (depth : Nat) (options : ValidationOptions) (cache : Cache) (b : Bool) :
    graphqlOutputTypeToZodSelectionSchema (GType.union name) s visited depth options cache =
      (ZodType.optional ZodType.boolean, cache)
    ∧ (∀ entries, (zodParse (ZodType.optional ZodType.boolean) (JValue.obj entries)).1 =
        [⟨ZIssueCode.invalid_type, [], "boolean", ZReceived.objectv⟩])
    ∧ zodParse (ZodType.optional ZodType.boolean) JValue.undef = ([], JValue.undef)
    ∧ zodParse (ZodType.optional ZodType.boolean) (JValue.bool b) = ([], JValue.bool b)
    ∧ (∀ k es rest, isTypeName k = true → buildFieldSelectionString es ≠ "" →
        buildFieldList ((k, JValue.obj es) :: rest) =
          ("... on " ++ k ++ " " ++ lbr ++ " " ++ buildFieldSelectionString es ++ " " ++ rbr)
            :: buildFieldList rest) := by
  refine ⟨?_, ?_, rfl, rfl, ?_⟩
  · unfold graphqlOutputTypeToZodSelectionSchema
    have h2 : compileFuel options = (jsOrNat options.maxSchemaDepth 10 + 1) + 1 := rfl
    rw [h2]
    by_cases h : depth > jsOrNat options.maxSchemaDepth 10 <;>
      simp [graphqlOutputTypeToZodSelectionSchemaF, h]
  · intro entries
    rfl
  · intro k es rest ht h
    simp only [buildFieldSelectionString] at h
    simp [buildFieldList, renderEntryValue, ht, h, buildFieldSelectionString]

/-- Counterexample for C3 as stated: for the union `Pet = Dog | Cat`,
the compiled selection validator of `getPet: Pet` is the boolean
fallback (its shape has no `Dog`/`Cat`/`__typename` keys), and it
rejects the member-keyed selection `{ Dog: { breed: true } }` that the
claim says is accepted. -/
theorem C3_counterexample :
    (generateOutputSelectionSchemas [exOpGetPet] exSchemaPet {} []).1 =
      [("getPet", ⟨ZodType.optional ZodType.boolean, []⟩)]
    ∧ (zodParse (ZodType.optional ZodType.boolean)
        (JValue.obj [("Dog", JValue.obj [("breed", JValue.bool true)])])).1 ≠ [] := by
  exact ⟨rfl, by decide⟩

/-- Witness for C3 (amended), at the union `Pet` with selection key
`Dog`. -/
theorem C3_amended_witness :
    graphqlOutputTypeToZodSelectionSchema (GType.union "Pet") exSchemaPet [] 0 {} [] =
      (ZodType.optional ZodType.boolean, [])
    ∧ buildFieldList [("Dog", JValue.obj [("breed", JValue.bool true)])] =
      ["... on Dog " ++ lbr ++ " breed " ++ rbr] := by
  have h := C3_amended "Pet" exSchemaPet [] 0 {} [] true
  refine ⟨h.1, ?_⟩
  have h5 := h.2.2.2.2 "Dog" [("breed", JValue.bool true)] []
    (by decide) (by decide)
  rw [h5]
  decide

/-! ## C1: empty selection versus computed default selection -/

/-- An empty selection mapping renders exactly like an absent one: both
produce an empty field-selection string. -/
theorem generateQueryString_empty_selection (op : Operation)
    (vars : List (String × JValue)) :
    generateQueryString op vars (JValue.obj []) =
      generateQueryString op vars JValue.undef := by
  unfold generateQueryString
  rfl

/-- C1 (amended): the per-tool `execution` never applies the computed
default selection — an empty selection mapping `{}` renders exactly like
no selection at all (no field-selection block); its query string
coincides with the one rendered from the operation's computed default
selection precisely in the degenerate case that this default selection
is empty. -/
theorem C1_amended (s : GSchema) (config : Config) (op : Operation)
    (vars : List (String × JValue)) :
    toolExecution s config op vars (JValue.obj []) =
      toolExecution s config op vars JValue.undef
    ∧ (createDefaultSelection s op.field.type = [] →
        toolExecution s config op vars (JValue.obj []) =
          toolExecution s config op vars
            (defaultsAsValue (createDefaultSelection s op.field.type))) := by
  constructor
  · unfold toolExecution execution
    simp only [generateQueryString_empty_selection]
  · intro h
    rw [h]
    rfl

/-- Witness for C1 (amended), at the spec's own example
`type Query { hello: String }` (scalar return type, empty default
selection): both calls produce `query hello { hello }`. -/
theorem C1_amended_witness :
    createDefaultSelection exSchemaEmpty (GType.scalar "String") = [] ∧
    toolExecution
        ⟨[], [], [⟨"hello", GType.scalar "String", [], none⟩], [], []⟩
        defaultConfig
        ⟨OpKind.query, "hello", ⟨"hello", GType.scalar "String", [], none⟩, [], ""⟩
        [] (JValue.obj []) =
      toolExecution
        ⟨[], [], [⟨"hello", GType.scalar "String", [], none⟩], [], []⟩
        defaultConfig
        ⟨OpKind.query, "hello", ⟨"hello", GType.scalar "String", [], none⟩, [], ""⟩
        [] (defaultsAsValue (createDefaultSelection exSchemaEmpty (GType.scalar "String"))) := by
  refine ⟨rfl, ?_⟩
  exact (C1_amended
    ⟨[], [], [⟨"hello", GType.scalar "String", [], none⟩], [], []⟩
    defaultConfig
    ⟨OpKind.query, "hello", ⟨"hello", GType.scalar "String", [], none⟩, [], ""⟩
    []).2 rfl

/-- Counterexample for C1 as stated: for `type Query { getUser: User }`
with `type User { id: ID }`, the computed default selection is
`{ id: true }`, but `execution` with the empty selection `{}` renders
`query getUser { getUser }` while rendering with the explicit default
selection yields `query getUser { getUser { id } }` — two different
query strings. -/
theorem C1_counterexample :
    extractOperationsFromSchema exSchemaUser defaultConfig = [exOpGetUser] ∧
    createDefaultSelection exSchemaUser exOpGetUser.field.type = [("id", true)] ∧
    toolExecution exSchemaUser defaultConfig exOpGetUser [] (JValue.obj []) =
      Except.ok ("query getUser " ++ lbr ++ " getUser " ++ rbr, []) ∧
    toolExecution exSchemaUser defaultConfig exOpGetUser []
        (defaultsAsValue (createDefaultSelection exSchemaUser exOpGetUser.field.type)) =
      Except.ok ("query getUser " ++ lbr ++ " getUser " ++ lbr ++ " id " ++ rbr ++ " " ++ rbr, []) ∧
    ("query getUser " ++ lbr ++ " getUser " ++ rbr : String) ≠
      "query getUser " ++ lbr ++ " getUser " ++ lbr ++ " id " ++ rbr ++ " " ++ rbr := by
  refine ⟨rfl, rfl, by rfl, by rfl, by decide⟩

/-! ## C2: default substitution in the output-selection validator -/

theorem jsHasKey_of_mem (kv : List (String × JValue)) (p : String × JValue)
    (hp : p ∈ kv) : jsHasKey kv p.1 = true := by
  unfold jsHasKey
  rw [List.find?_isSome]
  exact ⟨p, hp, by simp⟩

/-- A schema that accepts `undefined` parses it to `undefined` (among
the modelled combinators only `.optional()` and `z.any()` accept it,
both as the identity). -/
theorem zodParse_undef_ok (sch : ZodType) :
    (zodParse sch JValue.undef).1 = [] → (zodParse sch JValue.undef).2 = JValue.undef := by
  cases sch <;> simp [zodParse]

/-- Parsing the empty object against any shape that accepts it yields
the empty object: absent keys parse to `undefined` and are not included
in the output. -/
theorem zodParseFields_nil_input (fields : List (String × ZodType)) :
    (zodParseFields fields []).1 = [] → (zodParseFields fields []).2 = [] := by
  induction fields with
  | nil => intro _; rfl
  | cons head tail ih =>
    rcases head with ⟨k, sch⟩
    intro h
    rw [zodParseFields] at h ⊢
    rcases hz : zodParse sch (jsGet [] k) with ⟨iss, pv⟩
    rcases hzr : zodParseFields tail [] with ⟨issR, outR⟩
    dsimp only at h ⊢
    simp only [List.append_eq_nil, List.map_eq_nil_iff] at h
    have hpv : pv = JValue.undef := by
      have h1 : (zodParse sch JValue.undef).1 = [] := h.1
      have h2 := zodParse_undef_ok sch h1
      rw [show (jsGet ([] : List (String × JValue)) k) = JValue.undef from rfl] at hz
      rw [hz] at h2
      exact h2
    have houtR : outR = [] := by
      have h3 : (zodParseFields tail []).1 = [] := h.2
      have h4 := ih h3
      rw [hzr] at h4
      exact h4
    simp [hpv, houtR, JValue.isUndef, jsHasKey]

/-- A strict object parse without issues certifies that every input key
belongs to the shape. -/
theorem strict_no_extra (fields : List (String × ZodType))
    (kv : List (String × JValue)) :
    (zodParse (ZodType.objectStrict fields) (JValue.obj kv)).1 = [] →
      ∀ p ∈ kv, fields.any (fun f => f.1 = p.1) = true := by
  intro h p hp
  by_contra hno
  rw [zodParse] at h
  rcases hzf : zodParseFields fields kv with ⟨issues, out⟩
  dsimp only at h
  have hmem : p.1 ∈ (kv.filter
      (fun q => !(fields.any (fun f => f.1 = q.1)))).map (fun q => q.1) := by
    rw [List.mem_map]
    refine ⟨p, ?_, rfl⟩
    rw [List.mem_filter]
    exact ⟨hp, by simp [Bool.eq_false_iff.mpr hno]⟩
  have hne : ((kv.filter
      (fun q => !(fields.any (fun f => f.1 = q.1)))).map (fun q => q.1)).isEmpty = false := by
    rcases hl : (kv.filter (fun q => !(fields.any (fun f => f.1 = q.1)))).map (fun q => q.1) with
      _ | ⟨a, l⟩
    · rw [hl] at hmem; exact absurd hmem (List.not_mem_nil _)
    · rw [hl]; rfl
  simp only [hne, Bool.false_eq_true, if_false] at h
  simp at h

/-- A present key whose name is in the shape guarantees a non-empty
parse output. -/
theorem zodParseFields_out_mem (fields : List (String × ZodType))
    (kv : List (String × JValue)) (k : String) :
    fields.any (fun f => f.1 = k) = true → jsHasKey kv k = true →
      (zodParseFields fields kv).2 ≠ [] := by
  induction fields with
  | nil => intro h; simp at h
  | cons head tail ih =>
    rcases head with ⟨k', sch⟩
    intro hany hkey
    rw [zodParseFields]
    rcases hz : zodParse sch (jsGet kv k') with ⟨iss, pv⟩
    rcases hzr : zodParseFields tail kv with ⟨issR, outR⟩
    simp only [List.any_cons, Bool.or_eq_true, decide_eq_true_eq] at hany
    rcases hany with rfl | htail
    · have : jsHasKey kv k' = true := hkey
      simp [this]
    · have houtR : outR ≠ [] := by
        have := ih htail hkey
        rw [hzr] at this
        exact this
      intro hcon
      rcases List.append_eq_nil.mp hcon with ⟨-, h2⟩
      exact houtR h2

/-- C2 (amended): for every compiled operation whose selection schema is
a strict object shape, validating an absent (`undefined`) selection
yields the precomputed default mapping, as does an empty mapping
whenever it passes the base schema (it always does for compiled shapes,
whose field schemas all accept `undefined`); a `null` selection is
**rejected** by structural validation (`.optional()` accepts only
`undefined`); and any non-empty selection that passes structural
validation is returned as validated, unchanged by the
default-substituting transform. -/
theorem C2_amended (operations : List Operation) (s : GSchema)
    (options : ValidationOptions) (opName : String) (os : OutputSchema)
    (flds : List (String × ZodType))
    (hmem : (opName, os) ∈ (generateOutputSelectionSchemas operations s options []).1)
    (hshape : os.base = ZodType.optional (ZodType.objectStrict flds)) :
    outputSchemaParse os JValue.undef = ([], defaultsAsValue os.defaults)
    ∧ ((zodParse os.base (JValue.obj [])).1 = [] →
        outputSchemaParse os (JValue.obj []) = ([], defaultsAsValue os.defaults))
    ∧ (outputSchemaParse os JValue.null).1 ≠ []
    ∧ (∀ kv, kv ≠ [] → (zodParse os.base (JValue.obj kv)).1 = [] →
        outputSchemaParse os (JValue.obj kv) =
          ([], (zodParse os.base (JValue.obj kv)).2)) := by
  refine ⟨?_, ?_, ?_, ?_⟩
  · unfold outputSchemaParse
    rw [hshape]
    rfl
  · intro h
    rw [hshape] at h
    have hiss : (zodParseFields flds []).1 = [] := h
    have hout : (zodParseFields flds []).2 = [] := zodParseFields_nil_input flds hiss
    have hval : zodParse (ZodType.optional (ZodType.objectStrict flds)) (JValue.obj []) =
        ([], JValue.obj []) := by
      show ((zodParseFields flds []).1, JValue.obj (zodParseFields flds []).2) =
        ([], JValue.obj [])
      rw [hiss, hout]
    unfold outputSchemaParse
    rw [hshape, hval]
    rfl
  · unfold outputSchemaParse
    rw [hshape]
    simp [zodParse]
  · intro kv hne h
    rw [hshape] at h
    unfold outputSchemaParse
    rw [hshape]
    have hfull : zodParse (ZodType.optional (ZodType.objectStrict flds)) (JValue.obj kv) =
        zodParse (ZodType.objectStrict flds) (JValue.obj kv) := rfl
    have hstrict : (zodParse (ZodType.objectStrict flds) (JValue.obj kv)).1 = [] := by
      rw [hfull] at h
      exact h
    rcases hp : kv with _ | ⟨p, kv'⟩
    · exact absurd hp hne
    rw [← hp]
    have hout_ne : (zodParseFields flds kv).2 ≠ [] := by
      rw [hp]
      refine zodParseFields_out_mem flds (p :: kv') p.1 ?_ ?_
      · refine strict_no_extra flds (p :: kv') ?_ p (List.mem_cons_self p kv')
        rw [← hp]
        exact hstrict
      · exact jsHasKey_of_mem (p :: kv') p (List.mem_cons_self p kv')
    rw [hfull] at h ⊢
    rw [zodParse] at h ⊢
    rcases hzf : zodParseFields flds kv with ⟨issues, out⟩
    try rw [hzf] at h
    try rw [hzf] at hout_ne
    try rw [hzf]
    dsimp only at h ⊢
    rcases hext : ((kv.filter
        (fun q => !(flds.any (fun f => f.1 = q.1)))).map (fun q => q.1)).isEmpty with _ | _
    · rw [hext] at h
      simp at h
    · rw [hext] at h ⊢
      simp only [if_true] at h ⊢
      have hiss : issues = [] := by simpa using h
      rw [hiss]
      simp only [List.isEmpty_nil, if_true]
      rcases ho : out with _ | ⟨o, out'⟩
      · exact absurd ho hout_ne
      · rfl

/-- Counterexample for C2 as stated: for `getUser: User` the compiled
selection validator substitutes the default for `undefined` and `{}`,
but a `null` raw selection is **rejected** with a validation issue
instead of returning the precomputed default mapping. -/
theorem C2_counterexample :
    (generateOutputSelectionSchemas [exOpGetUser] exSchemaUser {} []).1 =
      [("getUser",
        ⟨ZodType.optional (ZodType.objectStrict [("id", ZodType.optional ZodType.boolean)]),
          [("id", true)]⟩)] ∧
    (outputSchemaParse
        ⟨ZodType.optional (ZodType.objectStrict [("id", ZodType.optional ZodType.boolean)]),
          [("id", true)]⟩ JValue.null).1 =
      [⟨ZIssueCode.invalid_type, [], "object", ZReceived.nullv⟩] := by
  exact ⟨rfl, rfl⟩

/-- Witness for C2 (amended), at the compiled `getUser` schema: the
default `{ id: true }` is substituted for `undefined` and for `{}`, and
the non-empty selection `{ id: false }` passes through unchanged. -/
theorem C2_amended_witness :
    outputSchemaParse
        ⟨ZodType.optional (ZodType.objectStrict [("id", ZodType.optional ZodType.boolean)]),
          [("id", true)]⟩ JValue.undef =
      ([], JValue.obj [("id", JValue.bool true)]) ∧
    outputSchemaParse
        ⟨ZodType.optional (ZodType.objectStrict [("id", ZodType.optional ZodType.boolean)]),
          [("id", true)]⟩ (JValue.obj []) =
      ([], JValue.obj [("id", JValue.bool true)]) ∧
    outputSchemaParse
        ⟨ZodType.optional (ZodType.objectStrict [("id", ZodType.optional ZodType.boolean)]),
          [("id", true)]⟩ (JValue.obj [("id", JValue.bool false)]) =
      ([], JValue.obj [("id", JValue.bool false)]) := by
  have h := C2_amended [exOpGetUser] exSchemaUser {} "getUser"
    ⟨ZodType.optional (ZodType.objectStrict [("id", ZodType.optional ZodType.boolean)]),
      [("id", true)]⟩
    [("id", ZodType.optional ZodType.boolean)]
    (List.Mem.head _)
    rfl
  refine ⟨h.1, ?_, ?_⟩
  · exact h.2.1 rfl
  · have h4 := h.2.2.2 [("id", JValue.bool false)] (by simp) rfl
    exact h4

/-! ## C10: the process-wide cache and purity -/

/-- Counterexample for C10 as stated: compiling `p2(y: Foo)` against
`input Foo { a: Int! }` yields a validator requiring `a` when the
process-wide cache is empty, but after an earlier compilation of a
**different** schema `input Foo { a: Int }` (shared type name), the
cached stale entry is reused: the validator accepts `{ y: {} }` that the
fresh validator rejects, so the compiled schema is not a pure function
of the type graph. -/
theorem C10_counterexample :
    (assocGet (generateValidationSchemas [exOpP2] exSchemaFooRequired {} []).1 "p2").getD .any =
      ZodType.objectStrip [("y", ZodType.optional (ZodType.objectStrip [("a", ZodType.int)]))] ∧
    (assocGet (generateValidationSchemas [exOpP2] exSchemaFooRequired {}
        ((generateValidationSchemas [exOpP1] exSchemaFooNullable {} []).2)).1 "p2").getD .any =
      ZodType.objectStrip
        [("y", ZodType.optional (ZodType.objectStrip [("a", ZodType.optional ZodType.int)]))] ∧
    (zodParse
        (ZodType.objectStrip [("y", ZodType.optional (ZodType.objectStrip [("a", ZodType.int)]))])
        (JValue.obj [("y", JValue.obj [])])).1 ≠ [] ∧
    (zodParse
        (ZodType.objectStrip
          [("y", ZodType.optional (ZodType.objectStrip [("a", ZodType.optional ZodType.int)]))])
        (JValue.obj [("y", JValue.obj [])])).1 = [] := by
  refine ⟨rfl, rfl, by decide, rfl⟩

theorem cacheGet_set (c : Cache) (k : String) (v : ZodType) :
    cacheGet (cacheSet c k v) k = some v := by
  simp [cacheGet, cacheSet, List.find?]

/-- Re-running the argument compiler on its own output cache returns the
same schema and the same cache. -/
theorem graphqlTypeToZodSchemaF_idem :
    ∀ (fuel : Nat) (t : GType) (s : GSchema) (visited : List String) (depth : Nat)
      (options : ValidationOptions) (c : Cache) (v : ZodType) (c' : Cache),
      graphqlTypeToZodSchemaF fuel t s visited depth options c = some (v, c') →
      graphqlTypeToZodSchemaF fuel t s visited depth options c' = some (v, c') := by
  intro fuel
  induction fuel with
  | zero =>
    intro t s visited depth options c v c' h
    rw [graphqlTypeToZodSchemaF.eq_def] at h
    exact absurd h (by simp)
  | succ f ih =>
    intro t s visited depth options c v c' h
    rw [graphqlTypeToZodSchemaF.eq_def] at h ⊢
    dsimp only at h ⊢
    by_cases hd : depth > jsOrNat options.maxSchemaDepth 10
    · simp only [if_pos hd] at h ⊢
      simp only [Option.some.injEq, Prod.mk.injEq] at h
      obtain ⟨rfl, rfl⟩ := h
      rfl
    · simp only [if_neg hd] at h ⊢
      cases t with
      | scalar n =>
        dsimp only at h ⊢
        simp only [Option.some.injEq, Prod.mk.injEq] at h
        obtain ⟨rfl, rfl⟩ := h
        rfl
      | object n =>
        dsimp only at h ⊢
        simp only [Option.some.injEq, Prod.mk.injEq] at h
        obtain ⟨rfl, rfl⟩ := h
        rfl
      | union n =>
        dsimp only at h ⊢
        simp only [Option.some.injEq, Prod.mk.injEq] at h
        obtain ⟨rfl, rfl⟩ := h
        rfl
      | nonNull inner =>
        dsimp only at h ⊢
        exact ih inner s visited (depth + 1) options c v c' h
      | list inner =>
        dsimp only at h ⊢
        rcases hin : graphqlTypeToZodSchemaF f inner s visited (depth + 1) options c with
          _ | ⟨item, ci⟩
        · rw [hin] at h; exact absurd h (by simp)
        · rw [hin] at h
          simp only [Option.some.injEq, Prod.mk.injEq] at h
          obtain ⟨rfl, rfl⟩ := h
          rw [ih inner s visited (depth + 1) options c item ci hin]
      | enum name values =>
        dsimp only at h ⊢
        rcases hcg : cacheGet c ("enum_" ++ name) with _ | sch
        · rw [hcg] at h
          by_cases hv : visited.contains name
          · simp only [hv, if_true] at h
            simp only [Option.some.injEq, Prod.mk.injEq] at h
            obtain ⟨rfl, rfl⟩ := h
            rw [hcg]
            rw [if_pos hv]
          · simp only [hv, Bool.false_eq_true, if_false] at h
            rcases values with _ | ⟨v0, vrest⟩
            · simp only [Option.some.injEq, Prod.mk.injEq] at h
              obtain ⟨rfl, rfl⟩ := h
              rw [cacheGet_set]
            · rcases vrest with _ | ⟨v1, vrest'⟩
              · simp only [Option.some.injEq, Prod.mk.injEq] at h
                obtain ⟨rfl, rfl⟩ := h
                rw [cacheGet_set]
              · simp only [Option.some.injEq, Prod.mk.injEq] at h
                obtain ⟨rfl, rfl⟩ := h
                rw [cacheGet_set]
        · rw [hcg] at h
          simp only [Option.some.injEq, Prod.mk.injEq] at h
          obtain ⟨rfl, rfl⟩ := h
          rw [hcg]
      | inputObject name =>
        dsimp only at h ⊢
        rcases hcg : cacheGet c ("input_" ++ name) with _ | sch
        · rw [hcg] at h
          by_cases hv : visited.contains name
          · simp only [hv, if_true] at h
            simp only [Option.some.injEq, Prod.mk.injEq] at h
            obtain ⟨rfl, rfl⟩ := h
            rw [hcg]
            rw [if_pos hv]
          · simp only [hv, Bool.false_eq_true, if_false] at h
            rcases hloop : inputFieldsLoop
                (fun ft cc => graphqlTypeToZodSchemaF f ft s (name :: visited)
                  (depth + 1) options cc)
                ((getInputFields s name).take (jsOrNat options.maxFields 100)) c with
              _ | ⟨flds, cx⟩
            · rw [hloop] at h; exact absurd h (by simp)
            · rw [hloop] at h
              simp only [Option.some.injEq, Prod.mk.injEq] at h
              obtain ⟨rfl, rfl⟩ := h
              rw [cacheGet_set]
        · rw [hcg] at h
          simp only [Option.some.injEq, Prod.mk.injEq] at h
          obtain ⟨rfl, rfl⟩ := h
          rw [hcg]

/-- Re-running the selection compiler on its own output cache returns
the same schema and the same cache. -/
theorem graphqlOutputTypeToZodSelectionSchemaF_idem :
    ∀ (fuel : Nat) (t : GType) (s : GSchema) (visited : List String) (depth : Nat)
      (options : ValidationOptions) (c : Cache) (v : ZodType) (c' : Cache),
      graphqlOutputTypeToZodSelectionSchemaF fuel t s visited depth options c = some (v, c') →
      graphqlOutputTypeToZodSelectionSchemaF fuel t s visited depth options c' = some (v, c') := by
  intro fuel
  induction fuel with
  | zero =>
    intro t s visited depth options c v c' h
    rw [graphqlOutputTypeToZodSelectionSchemaF.eq_def] at h
    exact absurd h (by simp)
  | succ f ih =>
    intro t s visited depth options c v c' h
    rw [graphqlOutputTypeToZodSelectionSchemaF.eq_def] at h ⊢
    dsimp only at h ⊢
    by_cases hd : depth > jsOrNat options.maxSchemaDepth 10
    · simp only [if_pos hd] at h ⊢
      simp only [Option.some.injEq, Prod.mk.injEq] at h
      obtain ⟨rfl, rfl⟩ := h
      rfl
    · simp only [if_neg hd] at h ⊢
      cases t with
      | scalar n =>
        dsimp only at h ⊢
        simp only [Option.some.injEq, Prod.mk.injEq] at h
        obtain ⟨rfl, rfl⟩ := h
        rfl
      | enum n vs =>
        dsimp only at h ⊢
        simp only [Option.some.injEq, Prod.mk.injEq] at h
        obtain ⟨rfl, rfl⟩ := h
        rfl
      | inputObject n =>
        dsimp only at h ⊢
        simp only [Option.some.injEq, Prod.mk.injEq] at h
        obtain ⟨rfl, rfl⟩ := h
        rfl
      | union n =>
        dsimp only at h ⊢
        simp only [Option.some.injEq, Prod.mk.injEq] at h
        obtain ⟨rfl, rfl⟩ := h
        rfl
      | nonNull inner =>
        dsimp only at h ⊢
        exact ih inner s visited (depth + 1) options c v c' h
      | list inner =>
        dsimp only at h ⊢
        exact ih inner s visited (depth + 1) options c v c' h
      | object name =>
        dsimp only at h ⊢
        rcases hcg : cacheGet c ("output_" ++ name ++ "_" ++ toString depth) with _ | sch
        · rw [hcg] at h
          by_cases hv : visited.contains name
          · simp only [hv, if_true] at h
            simp only [Option.some.injEq, Prod.mk.injEq] at h
            obtain ⟨rfl, rfl⟩ := h
            rw [hcg]
            rw [if_pos hv]
          · simp only [hv, Bool.false_eq_true, if_false] at h
            rcases hloop : selectionFieldsLoop
                (fun ft cc => graphqlOutputTypeToZodSelectionSchemaF f ft s (name :: visited)
                  (depth + 1) options cc)
                ((getObjectFields s name).take (jsOrNat options.maxFields 50)) c with
              _ | ⟨flds, cx⟩
            · rw [hloop] at h; exact absurd h (by simp)
            · rw [hloop] at h
              simp only [Option.some.injEq, Prod.mk.injEq] at h
              obtain ⟨rfl, rfl⟩ := h
              rw [cacheGet_set]
        · rw [hcg] at h
          simp only [Option.some.injEq, Prod.mk.injEq] at h
          obtain ⟨rfl, rfl⟩ := h
          rw [hcg]

/-- C10 (amended): the compiled schemas are deterministic functions of
the type graph **and** the process-wide cache state — re-running either
compiler with the cache it produced returns the identical schema and
leaves the cache unchanged ("built once and reused") — but they are not
pure functions of the type graph alone: as the counterexample shows, a
previously compiled schema sharing a type name changes the result
through the name-keyed global cache. -/
theorem C10_amended (fuel : Nat) (t : GType) (s : GSchema) (visited : List String)
    (depth : Nat) (options : ValidationOptions) (c : Cache) (v v₂ : ZodType) (c' c₂ : Cache) :
    (graphqlTypeToZodSchemaF fuel t s visited depth options c = some (v, c') →
      graphqlTypeToZodSchemaF fuel t s visited depth options c' = some (v, c'))
    ∧ (graphqlOutputTypeToZodSelectionSchemaF fuel t s visited depth options c = some (v₂, c₂) →
      graphqlOutputTypeToZodSelectionSchemaF fuel t s visited depth options c₂ = some (v₂, c₂)) := by
  exact ⟨graphqlTypeToZodSchemaF_idem fuel t s visited depth options c v c',
    graphqlOutputTypeToZodSelectionSchemaF_idem fuel t s visited depth options c v₂ c₂⟩

/-- Witness for C10 (amended): recompiling `input Foo { a: Int! }` (and
the selection schema of `User`) from the first run's cache reproduces
the same schema and cache. -/
theorem C10_amended_witness :
    graphqlTypeToZodSchemaF 12 (GType.inputObject "Foo") exSchemaFooRequired [] 0 {}
        [("input_Foo", ZodType.objectStrip [("a", ZodType.int)])] =
      some (ZodType.objectStrip [("a", ZodType.int)],
        [("input_Foo", ZodType.objectStrip [("a", ZodType.int)])])
    ∧ graphqlOutputTypeToZodSelectionSchemaF 12 (GType.object "User") exSchemaUser [] 0 {}
        [("output_User_0",
          ZodType.optional (ZodType.objectStrict [("id", ZodType.optional ZodType.boolean)]))] =
      some (ZodType.optional (ZodType.objectStrict [("id", ZodType.optional ZodType.boolean)]),
        [("output_User_0",
          ZodType.optional (ZodType.objectStrict [("id", ZodType.optional ZodType.boolean)]))]) := by
  constructor
  · exact (C10_amended 12 (GType.inputObject "Foo") exSchemaFooRequired [] 0 {} []
      (ZodType.objectStrip [("a", ZodType.int)]) ZodType.any
      [("input_Foo", ZodType.objectStrip [("a", ZodType.int)])] []).1 rfl
  · exact (C10_amended 12 (GType.object "User") exSchemaUser [] 0 {} [] ZodType.any
      (ZodType.optional (ZodType.objectStrict [("id", ZodType.optional ZodType.boolean)]))
      []
      [("output_User_0",
        ZodType.optional (ZodType.objectStrict [("id", ZodType.optional ZodType.boolean)]))]).2 rfl

/-! ## C9: termination of the recursive descent -/

theorem inputFieldsLoop_congr
    (compile₁ compile₂ : GType → Cache → Option (ZodType × Cache))
    (h : ∀ t c, compile₁ t c = compile₂ t c) :
    ∀ (fields : List (String × GType)) (c : Cache),
      inputFieldsLoop compile₁ fields c = inputFieldsLoop compile₂ fields c := by
  intro fields
  induction fields with
  | nil => intro c; rfl
  | cons head tail ih =>
    intro c
    rcases head with ⟨n, t⟩
    rw [inputFieldsLoop, inputFieldsLoop, h t c]
    rcases hc : compile₂ t c with _ | ⟨sch, c1⟩
    · rfl
    · dsimp only
      rw [ih c1]

theorem selectionFieldsLoop_congr
    (compile₁ compile₂ : GType → Cache → Option (ZodType × Cache))
    (h : ∀ t c, compile₁ t c = compile₂ t c) :
    ∀ (fields : List GFieldDef) (c : Cache),
      selectionFieldsLoop compile₁ fields c = selectionFieldsLoop compile₂ fields c := by
  intro fields
  induction fields with
  | nil => intro c; rfl
  | cons head tail ih =>
    intro c
    rw [selectionFieldsLoop, selectionFieldsLoop, h head.type c]
    rcases hc : compile₂ head.type c with _ | ⟨sch, c1⟩
    · rfl
    · dsimp only
      rw [ih c1]

theorem inputFieldsLoop_isSome
    (compile : GType → Cache → Option (ZodType × Cache))
    (h : ∀ t c, (compile t c).isSome) :
    ∀ (fields : List (String × GType)) (c : Cache),
      (inputFieldsLoop compile fields c).isSome := by
  intro fields
  induction fields with
  | nil => intro c; rfl
  | cons head tail ih =>
    intro c
    rcases head with ⟨n, t⟩
    rw [inputFieldsLoop]
    rcases hc : compile t c with _ | ⟨sch, c1⟩
    · have := h t c
      rw [hc] at this
      exact absurd this (by simp)
    · dsimp only
      rcases hr : inputFieldsLoop compile tail c1 with _ | ⟨flds, c2⟩
      · have := ih c1
        rw [hr] at this
        exact absurd this (by simp)
      · rfl

theorem selectionFieldsLoop_isSome
    (compile : GType → Cache → Option (ZodType × Cache))
    (h : ∀ t c, (compile t c).isSome) :
    ∀ (fields : List GFieldDef) (c : Cache),
      (selectionFieldsLoop compile fields c).isSome := by
  intro fields
  induction fields with
  | nil => intro c; rfl
  | cons head tail ih =>
    intro c
    rw [selectionFieldsLoop]
    rcases hc : compile head.type c with _ | ⟨sch, c1⟩
    · have := h head.type c
      rw [hc] at this
      exact absurd this (by simp)
    · dsimp only
      rcases hr : selectionFieldsLoop compile tail c1 with _ | ⟨flds, c2⟩
      · have := ih c1
        rw [hr] at this
        exact absurd this (by simp)
      · rfl

/-- Fuel stability of the argument compiler: any fuel beyond the depth
bound computes the same result as the canonical bound, because every
recursive call increments `depth` and the `depth > maxSchemaDepth` guard
stops the descent. -/
theorem graphqlTypeToZodSchemaF_stab :
    ∀ (f : Nat) (s : GSchema) (options : ValidationOptions) (t : GType)
      (visited : List String) (depth : Nat) (c : Cache),
      jsOrNat options.maxSchemaDepth 10 + 1 - depth < f →
      graphqlTypeToZodSchemaF f t s visited depth options c =
        graphqlTypeToZodSchemaF (jsOrNat options.maxSchemaDepth 10 + 1 - depth + 1)
          t s visited depth options c := by
  intro f
  induction f using Nat.strong_induction_on with
  | _ f ih =>
    intro s options t visited depth c hb
    rcases f with _ | f'
    · omega
    rw [graphqlTypeToZodSchemaF.eq_def, graphqlTypeToZodSchemaF.eq_def]
    dsimp only
    by_cases hd : depth > jsOrNat options.maxSchemaDepth 10
    · rw [if_pos hd, if_pos hd]
    · rw [if_neg hd, if_neg hd]
      have hble : jsOrNat options.maxSchemaDepth 10 + 1 - (depth + 1) < f' := by omega
      have hblt : jsOrNat options.maxSchemaDepth 10 + 1 - (depth + 1) <
          jsOrNat options.maxSchemaDepth 10 + 1 - depth := by omega
      have hcanon : jsOrNat options.maxSchemaDepth 10 + 1 - (depth + 1) + 1 =
          jsOrNat options.maxSchemaDepth 10 + 1 - depth := by omega
      cases t with
      | scalar n => rfl
      | object n => rfl
      | union n => rfl
      | enum n vs => rfl
      | inputObject n =>
        dsimp only
        have hloop : ∀ (L : List (String × GType)) (c0 : Cache),
            inputFieldsLoop (fun ft cc => graphqlTypeToZodSchemaF f' ft s (n :: visited)
              (depth + 1) options cc) L c0 =
            inputFieldsLoop (fun ft cc => graphqlTypeToZodSchemaF
              (jsOrNat options.maxSchemaDepth 10 + 1 - depth) ft s (n :: visited)
              (depth + 1) options cc) L c0 := by
          intro L c0
          apply inputFieldsLoop_congr
          intro ft cc
          rw [ih f' (by omega) s options ft (n :: visited) (depth + 1) cc hble]
          rw [ih (jsOrNat options.maxSchemaDepth 10 + 1 - depth) (by omega)
            s options ft (n :: visited) (depth + 1) cc hblt]
        rw [hloop]
      | nonNull inner =>
        dsimp only
        rw [ih f' (by omega) s options inner visited (depth + 1) c hble]
        rw [ih (jsOrNat options.maxSchemaDepth 10 + 1 - depth) (by omega)
          s options inner visited (depth + 1) c hblt]
      | list inner =>
        dsimp only
        rw [ih f' (by omega) s options inner visited (depth + 1) c hble]
        rw [ih (jsOrNat options.maxSchemaDepth 10 + 1 - depth) (by omega)
          s options inner visited (depth + 1) c hblt]

/-- Fuel stability of the selection compiler. -/
theorem graphqlOutputTypeToZodSelectionSchemaF_stab :
    ∀ (f : Nat) (s : GSchema) (options : ValidationOptions) (t : GType)
      (visited : List String) (depth : Nat) (c : Cache),
      jsOrNat options.maxSchemaDepth 10 + 1 - depth < f →
      graphqlOutputTypeToZodSelectionSchemaF f t s visited depth options c =
        graphqlOutputTypeToZodSelectionSchemaF
          (jsOrNat options.maxSchemaDepth 10 + 1 - depth + 1) t s visited depth options c := by
  intro f
  induction f using Nat.strong_induction_on with
  | _ f ih =>
    intro s options t visited depth c hb
    rcases f with _ | f'
    · omega
    rw [graphqlOutputTypeToZodSelectionSchemaF.eq_def,
      graphqlOutputTypeToZodSelectionSchemaF.eq_def]
    dsimp only
    by_cases hd : depth > jsOrNat options.maxSchemaDepth 10
    · rw [if_pos hd, if_pos hd]
    · rw [if_neg hd, if_neg hd]
      have hble : jsOrNat options.maxSchemaDepth 10 + 1 - (depth + 1) < f' := by omega
      have hblt : jsOrNat options.maxSchemaDepth 10 + 1 - (depth + 1) <
          jsOrNat options.maxSchemaDepth 10 + 1 - depth := by omega
      cases t with
      | scalar n => rfl
      | enum n vs => rfl
      | inputObject n => rfl
      | union n => rfl
      | object n =>
        dsimp only
        have hloop : ∀ (L : List GFieldDef) (c0 : Cache),
            selectionFieldsLoop (fun ft cc => graphqlOutputTypeToZodSelectionSchemaF f' ft s
              (n :: visited) (depth + 1) options cc) L c0 =
            selectionFieldsLoop (fun ft cc => graphqlOutputTypeToZodSelectionSchemaF
              (jsOrNat options.maxSchemaDepth 10 + 1 - depth) ft s (n :: visited)
              (depth + 1) options cc) L c0 := by
          intro L c0
          apply selectionFieldsLoop_congr
          intro ft cc
          rw [ih f' (by omega) s options ft (n :: visited) (depth + 1) cc hble]
          rw [ih (jsOrNat options.maxSchemaDepth 10 + 1 - depth) (by omega)
            s options ft (n :: visited) (depth + 1) cc hblt]
        rw [hloop]
      | nonNull inner =>
        dsimp only
        rw [ih f' (by omega) s options inner visited (depth + 1) c hble]
        rw [ih (jsOrNat options.maxSchemaDepth 10 + 1 - depth) (by omega)
          s options inner visited (depth + 1) c hblt]
      | list inner =>
        dsimp only
        rw [ih f' (by omega) s options inner visited (depth + 1) c hble]
        rw [ih (jsOrNat options.maxSchemaDepth 10 + 1 - depth) (by omega)
          s options inner visited (depth + 1) c hblt]

/-- Sufficient fuel always yields a result in the argument compiler. -/
theorem graphqlTypeToZodSchemaF_isSome :
    ∀ (f : Nat) (s : GSchema) (options : ValidationOptions) (t : GType)
      (visited : List String) (depth : Nat) (c : Cache),
      jsOrNat options.maxSchemaDepth 10 + 1 - depth < f →
      (graphqlTypeToZodSchemaF f t s visited depth options c).isSome := by
  intro f
  induction f using Nat.strong_induction_on with
  | _ f ih =>
    intro s options t visited depth c hb
    rcases f with _ | f'
    · omega
    rw [graphqlTypeToZodSchemaF.eq_def]
    dsimp only
    by_cases hd : depth > jsOrNat options.maxSchemaDepth 10
    · rw [if_pos hd]
      rfl
    · rw [if_neg hd]
      have hble : jsOrNat options.maxSchemaDepth 10 + 1 - (depth + 1) < f' := by omega
      cases t with
      | scalar n => rfl
      | object n => rfl
      | union n => rfl
      | enum n vs =>
        dsimp only
        rcases cacheGet c ("enum_" ++ n) with _ | sch
        · dsimp only
          by_cases hv : visited.contains n
          · rw [if_pos hv]; rfl
          · rw [if_neg hv]
            rcases vs with _ | ⟨v0, vrest⟩
            · rfl
            · rcases vrest with _ | ⟨v1, vrest'⟩ <;> rfl
        · rfl
      | inputObject n =>
        dsimp only
        rcases cacheGet c ("input_" ++ n) with _ | sch
        · dsimp only
          by_cases hv : visited.contains n
          · rw [if_pos hv]; rfl
          · rw [if_neg hv]
            have hsome : ∀ ft cc, (graphqlTypeToZodSchemaF f' ft s (n :: visited)
                (depth + 1) options cc).isSome :=
              fun ft cc => ih f' (by omega) s options ft (n :: visited) (depth + 1) cc hble
            have hl := inputFieldsLoop_isSome _ hsome
              ((getInputFields s n).take (jsOrNat options.maxFields 100)) c
            rcases hr : inputFieldsLoop (fun ft cc => graphqlTypeToZodSchemaF f' ft s
                (n :: visited) (depth + 1) options cc)
                ((getInputFields s n).take (jsOrNat options.maxFields 100)) c with
              _ | ⟨flds, c2⟩
            · rw [hr] at hl
              exact absurd hl (by simp)
            · try rw [hr]
              rfl
        · rfl
      | nonNull inner =>
        dsimp only
        exact ih f' (by omega) s options inner visited (depth + 1) c hble
      | list inner =>
        dsimp only
        have hs := ih f' (by omega) s options inner visited (depth + 1) c hble
        rcases hr : graphqlTypeToZodSchemaF f' inner s visited (depth + 1) options c with
          _ | ⟨item, ci⟩
        · rw [hr] at hs
          exact absurd hs (by simp)
        · try rw [hr]
          rfl

/-- Sufficient fuel always yields a result in the selection compiler. -/
theorem graphqlOutputTypeToZodSelectionSchemaF_isSome :
    ∀ (f : Nat) (s : GSchema) (options : ValidationOptions) (t : GType)
      (visited : List String) (depth : Nat) (c : Cache),
      jsOrNat options.maxSchemaDepth 10 + 1 - depth < f →
      (graphqlOutputTypeToZodSelectionSchemaF f t s visited depth options c).isSome := by
  intro f
  induction f using Nat.strong_induction_on with
  | _ f ih =>
    intro s options t visited depth c hb
    rcases f with _ | f'
    · omega
    rw [graphqlOutputTypeToZodSelectionSchemaF.eq_def]
    dsimp only
    by_cases hd : depth > jsOrNat options.maxSchemaDepth 10
    · rw [if_pos hd]
      rfl
    · rw [if_neg hd]
      have hble : jsOrNat options.maxSchemaDepth 10 + 1 - (depth + 1) < f' := by omega
      cases t with
      | scalar n => rfl
      | enum n vs => rfl
      | inputObject n => rfl
      | union n => rfl
      | object n =>
        dsimp only
        rcases cacheGet c ("output_" ++ n ++ "_" ++ toString depth) with _ | sch
        · dsimp only
          by_cases hv : visited.contains n
          · rw [if_pos hv]; rfl
          · rw [if_neg hv]
            have hsome : ∀ ft cc, (graphqlOutputTypeToZodSelectionSchemaF f' ft s (n :: visited)
                (depth + 1) options cc).isSome :=
              fun ft cc => ih f' (by omega) s options ft (n :: visited) (depth + 1) cc hble
            have hl := selectionFieldsLoop_isSome _ hsome
              ((getObjectFields s n).take (jsOrNat options.maxFields 50)) c
            rcases hr : selectionFieldsLoop (fun ft cc => graphqlOutputTypeToZodSelectionSchemaF
                f' ft s (n :: visited) (depth + 1) options cc)
                ((getObjectFields s n).take (jsOrNat options.maxFields 50)) c with
              _ | ⟨flds, c2⟩
            · rw [hr] at hl
              exact absurd hl (by simp)
            · try rw [hr]
              rfl
        · rfl
      | nonNull inner =>
        dsimp only
        exact ih f' (by omega) s options inner visited (depth + 1) c hble
      | list inner =>
        dsimp only
        exact ih f' (by omega) s options inner visited (depth + 1) c hble

/-- C9: for every type graph (cyclic ones included) both compilers'
recursive descent terminates: any two fuels beyond the
`maxSchemaDepth + 1 - depth` bound compute the same finite schema, and
such a computation always yields a result (never runs out of fuel) —
the depth counter, checked before every recursive call, bounds the
descent regardless of cycles in the graph. -/
theorem C9_compilation_terminates (s : GSchema) (options : ValidationOptions)
    (t : GType) (visited : List String) (depth : Nat) (cache : Cache) (f₁ f₂ : Nat)
    (h₁ : jsOrNat options.maxSchemaDepth 10 + 1 - depth < f₁)
    (h₂ : jsOrNat options.maxSchemaDepth 10 + 1 - depth < f₂) :
    (graphqlTypeToZodSchemaF f₁ t s visited depth options cache =
       graphqlTypeToZodSchemaF f₂ t s visited depth options cache
     ∧ (graphqlTypeToZodSchemaF f₁ t s visited depth options cache).isSome)
    ∧ (graphqlOutputTypeToZodSelectionSchemaF f₁ t s visited depth options cache =
         graphqlOutputTypeToZodSelectionSchemaF f₂ t s visited depth options cache
       ∧ (graphqlOutputTypeToZodSelectionSchemaF f₁ t s visited depth options cache).isSome) := by
  refine ⟨⟨?_, ?_⟩, ?_, ?_⟩
  · rw [graphqlTypeToZodSchemaF_stab f₁ s options t visited depth cache h₁,
      graphqlTypeToZodSchemaF_stab f₂ s options t visited depth cache h₂]
  · exact graphqlTypeToZodSchemaF_isSome f₁ s options t visited depth cache h₁
  · rw [graphqlOutputTypeToZodSelectionSchemaF_stab f₁ s options t visited depth cache h₁,
      graphqlOutputTypeToZodSelectionSchemaF_stab f₂ s options t visited depth cache h₂]
  · exact graphqlOutputTypeToZodSelectionSchemaF_isSome f₁ s options t visited depth cache h₁

/-- Witness for C9, at the cyclic graph `type A { b: B }  type B { a: A }`
(with the parallel input-object cycle): compilation from fuel 13 and
fuel 20 agree and produce a result, for the argument compiler on the
input-object cycle and for the selection compiler on the object cycle. -/
theorem C9_compilation_terminates_witness :
    (graphqlTypeToZodSchemaF 13 (GType.inputObject "A") exSchemaAB [] 0 {} [] =
       graphqlTypeToZodSchemaF 20 (GType.inputObject "A") exSchemaAB [] 0 {} []
     ∧ (graphqlTypeToZodSchemaF 13 (GType.inputObject "A") exSchemaAB [] 0 {} []).isSome)
    ∧ (graphqlOutputTypeToZodSelectionSchemaF 13 (GType.object "A") exSchemaAB [] 0 {} [] =
         graphqlOutputTypeToZodSelectionSchemaF 20 (GType.object "A") exSchemaAB [] 0 {} []
       ∧ (graphqlOutputTypeToZodSelectionSchemaF 13 (GType.object "A")
           exSchemaAB [] 0 {} []).isSome) :=
  ⟨(C9_compilation_terminates exSchemaAB {} (GType.inputObject "A") [] 0 [] 13 20
      (by decide) (by decide)).1,
   (C9_compilation_terminates exSchemaAB {} (GType.object "A") [] 0 [] 13 20
      (by decide) (by decide)).2⟩
